import Mathlib

/-! # PPM-Web dashboard: a shallow embedding of the client-side scripts

The definitions below transcribe the JavaScript of `dashboard.js`, `sidebar.js`
and `login.js` into Lean functions: DOM elements become fields of explicit
state records, event handlers become state transformers, and a JavaScript
exception becomes the `Except.error` result.
-/

namespace PPM

/-! ## JavaScript values and errors -/

/-- A field value of a Firestore document as the scripts observe it. -/
inductive JsVal where
  | undefined : JsVal
  | null : JsVal
  | bool : Bool → JsVal
  | num : Int → JsVal
  | str : String → JsVal
  deriving DecidableEq, Repr

/-- The JavaScript strict inequality `v !== 'lit'` against a string literal. -/
def JsVal.strictNe (v : JsVal) (lit : String) : Bool :=
  match v with
  | JsVal.str s => s != lit
  | _ => true

/-- Exceptions the scripts can raise. -/
inductive JsError where
  | typeError : String → JsError
  | queryError : String → JsError
  | rangeError : String → JsError
  deriving DecidableEq, Repr

/-! ## The dashboard DOM -/

/-- A child node of the recent-activities list. -/
structure Node where
  tag : String
  className : String
  innerHTML : String
  deriving DecidableEq, Repr

/-- The identified elements `dashboard.js` writes to. A field is `none` when the
element is absent from the page; otherwise it holds the element content. -/
structure Dom where
  activeProjectsValue : Option String
  inProgressTargetsValue : Option String
  violationsValue : Option String
  birthdaysValue : Option String
  academicValue : Option String
  assetsValue : Option String
  recentActivitiesList : Option (List Node)
  deriving DecidableEq, Repr

/-- Assigning `document.getElementById('activeProjectsValue').textContent`:
a `TypeError` when the element is missing. -/
def Dom.setActiveProjects (dom : Dom) (text : String) : Except JsError Dom :=
  match dom.activeProjectsValue with
  | none => Except.error (JsError.typeError "activeProjectsValue is null")
  | some _ => Except.ok { dom with activeProjectsValue := some text }

/-- Assigning `document.getElementById('inProgressTargetsValue').textContent`. -/
def Dom.setInProgressTargets (dom : Dom) (text : String) : Except JsError Dom :=
  match dom.inProgressTargetsValue with
  | none => Except.error (JsError.typeError "inProgressTargetsValue is null")
  | some _ => Except.ok { dom with inProgressTargetsValue := some text }

/-- The guarded write `if (el) el.textContent = ...` on the Academic Calendar
feature card. -/
def Dom.setAcademic (dom : Dom) (text : String) : Dom :=
  match dom.academicValue with
  | none => dom
  | some _ => { dom with academicValue := some text }

/-! ## Project records and the active-projects count (dashboard.js 95-106) -/

/-- A document of `projectsPPM`; only `status` is read. -/
structure ProjectRecord where
  status : JsVal
  deriving DecidableEq, Repr

/-- The loop `snap.forEach(d => ... if (s!=='Completed' && s!=='Cancelled') cnt++)`
of the fallback handler, started from the counter value `cnt`. -/
def countActiveFrom (cnt : Nat) : List ProjectRecord → Nat
  | [] => cnt
  | d :: rest =>
    let s := d.status
    if s.strictNe "Completed" && s.strictNe "Cancelled" then countActiveFrom (cnt + 1) rest
    else countActiveFrom cnt rest

/-- The fallback handler of the active-projects subscription (lines 102-105):
count locally, then write `String(cnt)` to the display. -/
def activeProjectsLocalHandler (snap : List ProjectRecord) (dom : Dom) : Except JsError Dom :=
  let cnt := countActiveFrom 0 snap
  dom.setActiveProjects (toString cnt)

/-- The handler of the server-side filtered subscription (line 99): write
`String(snap.size)`. -/
def activeProjectsSizeHandler (snap : List ProjectRecord) (dom : Dom) : Except JsError Dom :=
  dom.setActiveProjects (toString snap.length)

/-- The handler of the targets subscription (lines 110-112): write
`String(snap.size)`. -/
def targetsSizeHandler (snapSize : Nat) (dom : Dom) : Except JsError Dom :=
  dom.setInProgressTargets (toString snapSize)

/-- The handler of the academic-events subscription (lines 135-138): write
`String(snap.size)` when the feature card is on the page. -/
def academicSizeHandler (snapSize : Nat) (dom : Dom) : Dom :=
  dom.setAcademic (toString snapSize)

/-- Whether a record has a status in the exclusion set `Completed`, `Cancelled`. -/
def isClosedStatus (d : ProjectRecord) : Bool :=
  decide (d.status = JsVal.str "Completed" ∨ d.status = JsVal.str "Cancelled")

/-! ## The backend subscription interface and `initListeners` (dashboard.js 92-172) -/

/-- The filters `initListeners` passes to `where`. -/
inductive Filter where
  | notIn : String → List String → Filter
  | eq : String → String → Filter
  | ge : String → Int → Filter
  deriving DecidableEq, Repr

/-- A query as built by `db.collection(c)`, optionally followed by `where`,
`orderBy(field, direction)` and `limit`. -/
structure Query where
  collection : String
  filter : Option Filter
  orderBy : Option (String × String)
  limit : Option Nat
  deriving DecidableEq, Repr

/-- The snapshot callbacks `initListeners` registers, one name per arrow
function in the source: line 99, lines 102-105, 110-112, 116-118, 121-131,
135-138, 141-149 and 152-169. -/
inductive Handler where
  | activeProjectsSize : Handler
  | activeProjectsLocal : Handler
  | targetsSize : Handler
  | violationsSize : Handler
  | birthdaysToday : Handler
  | academicSize : Handler
  | assetsTotal : Handler
  | recentActivities : Handler
  deriving DecidableEq, Repr

/-- A live subscription: the query it was established on and its callback. -/
structure Subscription where
  query : Query
  handler : Handler
  deriving DecidableEq, Repr

/-- Console output. -/
inductive ConsoleEntry where
  | warn : String → ConsoleEntry
  | error : JsError → ConsoleEntry
  | info : String → ConsoleEntry
  deriving DecidableEq, Repr

/-- The Firestore handle: `accepts q` tells whether the call chain that builds
`q` and ends in `onSnapshot` completes; when it does not, the chain throws and
registers nothing. -/
structure Db where
  accepts : Query → Bool

/-- What a run of `initListeners` leaves behind: the subscriptions established
so far in order, the console, and the exception that escaped, if any. -/
structure InitResult where
  subs : List Subscription
  console : List ConsoleEntry
  thrown : Option JsError
  deriving DecidableEq, Repr

/-- One `db.collection(...)...onSnapshot(handler)` chain. -/
def establish (db : Db) (q : Query) (h : Handler) (subs : List Subscription) :
    Except JsError (List Subscription) :=
  if db.accepts q then Except.ok (subs ++ [{ query := q, handler := h }])
  else Except.error (JsError.queryError q.collection)

def projectsFilteredQuery : Query :=
  { collection := "projectsPPM", filter := some (Filter.notIn "status" ["Completed", "Cancelled"]),
    orderBy := none, limit := none }

def projectsPlainQuery : Query :=
  { collection := "projectsPPM", filter := none, orderBy := none, limit := none }

def targetsQuery : Query :=
  { collection := "targetListItems", filter := some (Filter.eq "status" "In Progress"),
    orderBy := none, limit := none }

def violationsQuery : Query :=
  { collection := "studentViolations", filter := none, orderBy := none, limit := none }

def birthdaysQuery : Query :=
  { collection := "birthdayEvents", filter := none, orderBy := none, limit := none }

/-- The query `acadQ`; `startOfToday` is the value of
`Timestamp.fromDate(startOfDay(new Date()))` when `initListeners` runs. -/
def academicQuery (startOfToday : Int) : Query :=
  { collection := "academicEvents", filter := some (Filter.ge "date" startOfToday),
    orderBy := none, limit := none }

def assetsQuery : Query :=
  { collection := "assetItems", filter := none, orderBy := none, limit := none }

def activitiesQuery : Query :=
  { collection := "activityLogEntries", filter := none, orderBy := some ("date", "desc"),
    limit := some 6 }

/-- Lines 95-106: `try` the filtered subscription; the `catch` block
establishes the unfiltered one with the locally counting callback. An
exception of the `catch` block itself escapes. -/
def projectsStep (db : Db) (r : InitResult) : InitResult :=
  match r.thrown with
  | some _ => r
  | none =>
    match establish db projectsFilteredQuery Handler.activeProjectsSize r.subs with
    | Except.ok subs => { r with subs := subs }
    | Except.error _ =>
      match establish db projectsPlainQuery Handler.activeProjectsLocal r.subs with
      | Except.ok subs => { r with subs := subs }
      | Except.error e => { r with thrown := some e }

/-- Lines 108-113: `try` the filtered subscription; the `catch` block is
`console.error(e)` and nothing else. -/
def targetsStep (db : Db) (r : InitResult) : InitResult :=
  match r.thrown with
  | some _ => r
  | none =>
    match establish db targetsQuery Handler.targetsSize r.subs with
    | Except.ok subs => { r with subs := subs }
    | Except.error e => { r with console := r.console ++ [ConsoleEntry.error e] }

/-- A subscription outside any `try`: an exception escapes `initListeners`,
so the statements after it do not run. -/
def plainStep (db : Db) (q : Query) (h : Handler) (r : InitResult) : InitResult :=
  match r.thrown with
  | some _ => r
  | none =>
    match establish db q h r.subs with
    | Except.ok subs => { r with subs := subs }
    | Except.error e => { r with thrown := some e }

/-- The function `initListeners(db)`: the null guard of line 93, then the
seven subscriptions in source order. -/
def initListeners (db : Option Db) (startOfToday : Int) : InitResult :=
  match db with
  | none =>
    { subs := [], console := [ConsoleEntry.warn "Firestore not available"], thrown := none }
  | some db =>
    let r0 : InitResult := { subs := [], console := [], thrown := none }
    let r1 := projectsStep db r0
    let r2 := targetsStep db r1
    let r3 := plainStep db violationsQuery Handler.violationsSize r2
    let r4 := plainStep db birthdaysQuery Handler.birthdaysToday r3
    let r5 := plainStep db (academicQuery startOfToday) Handler.academicSize r4
    let r6 := plainStep db assetsQuery Handler.assetsTotal r5
    plainStep db activitiesQuery Handler.recentActivities r6

/-- The callbacks that count project records, by name. -/
def Handler.onProjects : Handler → Option (List ProjectRecord → Dom → Except JsError Dom)
  | Handler.activeProjectsSize => some activeProjectsSizeHandler
  | Handler.activeProjectsLocal => some activeProjectsLocalHandler
  | _ => none

/-- The element a counting callback writes to. -/
def Handler.target : Handler → String
  | Handler.activeProjectsSize => "#activeProjectsValue"
  | Handler.activeProjectsLocal => "#activeProjectsValue"
  | Handler.targetsSize => "#inProgressTargetsValue"
  | Handler.violationsSize => "#violationsValue"
  | Handler.birthdaysToday => "#birthdaysValue"
  | Handler.academicSize => "[data-feature=\"Academic Calendar\"] .feature-value"
  | Handler.assetsTotal => "[data-feature=\"Total Assets\"] .feature-value"
  | Handler.recentActivities => "#recentActivitiesList"

/-- A backend on which `where` rejects the listed operators and accepts every
other query. -/
def dbRejecting (reject : Filter → Bool) : Db :=
  { accepts := fun q =>
      match q.filter with
      | none => true
      | some f => !reject f }

/-- The subscriptions established after the targets block when nothing throws. -/
def laterSubscriptions (startOfToday : Int) : List Subscription :=
  [ { query := violationsQuery, handler := Handler.violationsSize },
    { query := birthdaysQuery, handler := Handler.birthdaysToday },
    { query := academicQuery startOfToday, handler := Handler.academicSize },
    { query := assetsQuery, handler := Handler.assetsTotal },
    { query := activitiesQuery, handler := Handler.recentActivities } ]

/-! ## The large-number formatter (dashboard.js 175-181)

A finite JavaScript number is modelled by the rational it denotes. The
division of line 178 rounds its exact quotient to binary64; `toFixed` then
works on the exact value of that double, throws for more than 100 digits and
hands values of `10^21` and above to `Number.prototype.toString`, which is a
parameter here. Infinities and `NaN` are not modelled. -/

/-- The integer nearest to `y`, the even one on a tie. -/
def roundHalfEven (y : ℚ) : ℤ :=
  let f := ⌊y⌋
  let r := y - f
  if r < 1 / 2 then f
  else if 1 / 2 < r then f + 1
  else if f % 2 = 0 then f else f + 1

/-- The binary exponent under which `x` is rounded to binary64: that of its
leading bit, and not below the exponent of the smallest normal number. -/
def binaryExponent (x : ℚ) : ℤ :=
  max (Int.log 2 |x|) (-1022)

/-- The binary64 number nearest to `x`: 53 significant bits, ties to even,
gradual underflow. A result of `2^1024` or more stands for an infinity; the
quotient of a finite number by a threshold of at least 1 never is one. -/
def toBinary64 (x : ℚ) : ℚ :=
  (roundHalfEven (x / (2 : ℚ) ^ (binaryExponent x - 52)) : ℚ) * (2 : ℚ) ^ (binaryExponent x - 52)

/-- The JavaScript quotient `a / b` of two finite numbers, `b ≠ 0`. -/
def jsDivide (a b : ℚ) : ℚ :=
  toBinary64 (a / b)

/-- An entry of the table `map`. -/
structure SuffixEntry where
  suffix : String
  threshold : ℚ
  deriving DecidableEq

/-- The table `map` of line 176. -/
def suffixMap : List SuffixEntry :=
  [⟨"T", 10 ^ 12⟩, ⟨"B", 10 ^ 9⟩, ⟨"M", 10 ^ 6⟩, ⟨"K", 10 ^ 3⟩, ⟨"", 1⟩]

/-- The entry chosen on line 177: `map.find(x => Math.abs(num) >= x.threshold) || map[4]`. -/
def findSuffix (num : ℚ) : SuffixEntry :=
  (suffixMap.find? (fun x => decide (|num| ≥ x.threshold))).getD ⟨"", 1⟩

/-- The integer `n` for which `n / 10^f - x` is closest to zero, the larger one
on a tie, for `x ≥ 0`. -/
def roundScaled (x : ℚ) (f : Nat) : Nat :=
  (⌊x * 10 ^ f + 1 / 2⌋).toNat

/-- The digit string of step 10 of `Number.prototype.toFixed`: the decimal
digits of `n`, left-padded with zeros to `f + 1` characters, with a point
before the last `f` characters when `f ≠ 0`. -/
def fixedDigits (n f : Nat) : List Char :=
  let m := Nat.toDigits 10 n
  if f ≠ 0 then
    let m := if m.length ≤ f then List.replicate (f + 1 - m.length) '0' ++ m else m
    let k := m.length
    m.take (k - f) ++ '.' :: m.drop (k - f)
  else m

/-- The method `toFixed(f)` on a finite number `x`: a `RangeError` for more
than 100 digits, the sign, and then either the string `numberToString` gives
for a magnitude of `10^21` or more, or the rounded digits. -/
def toFixed (numberToString : ℚ → String) (x : ℚ) (f : Nat) : Except JsError (List Char) :=
  if f > 100 then
    Except.error (JsError.rangeError "toFixed() digits argument must be between 0 and 100")
  else
    let s := if x < 0 then ['-'] else []
    let x := if x < 0 then -x else x
    if x ≥ 10 ^ 21 then Except.ok (s ++ (numberToString x).data)
    else Except.ok (s ++ fixedDigits (roundScaled x f) f)

/-- The function `formatLargeNumberWithSuffix(num, precision)`; an exception
of `toFixed` escapes it. -/
def formatLargeNumberWithSuffix (numberToString : ℚ → String) (num : ℚ) (precision : Nat) :
    Except JsError String :=
  let found := findSuffix num
  match toFixed numberToString (jsDivide num found.threshold) precision with
  | Except.error e => Except.error e
  | Except.ok formatted =>
    let finalValue :=
      if precision > 0 ∧ ('.' :: List.replicate precision '0') <:+ formatted
      then formatted.take (formatted.length - (precision + 1))
      else formatted
    Except.ok ("Rp " ++ String.mk finalValue ++ found.suffix)

/-- The default value of the parameter `precision`. -/
def defaultPrecision : Nat := 1

/-- The value of a string of decimal digits, most significant first. -/
def digitsValue (cs : List Char) : Nat :=
  cs.foldl (fun acc c => 10 * acc + (c.toNat - 48)) 0

/-- The number a plain decimal numeral denotes: one or more digits, optionally
followed by a point and one or more digits. -/
def numeralValue (s : String) : Option ℚ :=
  let ip := s.data.takeWhile (fun c => c != '.')
  let rest := s.data.dropWhile (fun c => c != '.')
  if ip = [] ∨ ¬ ip.all Char.isDigit then none
  else
    match rest with
    | [] => some (digitsValue ip)
    | _ :: fp =>
      if fp = [] ∨ ¬ fp.all Char.isDigit then none
      else some (digitsValue ip + (digitsValue fp : ℚ) / 10 ^ fp.length)

/-! ## The relative-time formatter (dashboard.js 79-89) -/

/-- The value of `Math.round(a / b)` for an integer `a` and a positive integer
`b`: the floor of `a / b + 1/2`, computed with integer division. -/
def jsRound (a b : Int) : Int := (2 * a + b) / (2 * b)

/-- The function `timeAgo(date)`, with `now` the value of `Date.now()` and `date`
the value of `date.getTime()`, or `none` for a falsy argument. -/
def timeAgo (now : Int) (date : Option Int) : String :=
  match date with
  | none => ""
  | some t =>
    let diff := now - t
    let mins := jsRound diff 60000
    if mins < 1 then "just now"
    else if mins < 60 then toString mins ++ "m ago"
    else
      let hours := jsRound mins 60
      if hours < 24 then toString hours ++ "h ago"
      else
        let days := jsRound hours 24
        toString days ++ "d ago"

/-- The bucket of an output of `timeAgo`, read off the text. -/
def outputBucket (s : String) : Option Nat :=
  if s = "just now" then some 0
  else if "m ago".data <:+ s.data then some 1
  else if "h ago".data <:+ s.data then some 2
  else if "d ago".data <:+ s.data then some 3
  else none

/-- The number an output of `timeAgo` starts with (0 when it starts with none). -/
def outputNumber (s : String) : Nat :=
  digitsValue (s.data.takeWhile Char.isDigit)

/-! ## The recent-activities subscription (dashboard.js 151-169) -/

/-- JavaScript truthiness of a field value. -/
def JsVal.truthy : JsVal → Bool
  | JsVal.undefined => false
  | JsVal.null => false
  | JsVal.bool b => b
  | JsVal.num n => n != 0
  | JsVal.str s => s != ""

/-- The conversion `String(v)`. -/
def JsVal.toStr : JsVal → String
  | JsVal.undefined => "undefined"
  | JsVal.null => "null"
  | JsVal.bool b => if b then "true" else "false"
  | JsVal.num n => toString n
  | JsVal.str s => s

/-- The replacement table of `escapeHtml`, applied to one character. -/
def escapeChar (c : Char) : List Char :=
  if c = '&' then "&amp;".data
  else if c = '<' then "&lt;".data
  else if c = '>' then "&gt;".data
  else if c = '"' then "&quot;".data
  else if c = '\'' then "&#39;".data
  else [c]

/-- The global replace of line 77 over the characters of a string. -/
def escapeChars : List Char → List Char
  | [] => []
  | c :: cs => escapeChar c ++ escapeChars cs

/-- The helper `escapeHtml(s)`: the empty string for a falsy argument. -/
def escapeHtml (v : JsVal) : String :=
  if v.truthy then String.mk (escapeChars v.toStr.data) else ""

/-- A document of `activityLogEntries`. The field `date` is `some t` when it is a
timestamp (it has `toDate`) of `t` milliseconds, and `none` otherwise. -/
structure ActivityRecord where
  title : JsVal
  date : Option Int
  source : JsVal
  deriving DecidableEq, Repr

/-- The node that `innerHTML = '<p class="muted">No recent activity.</p>'` creates. -/
def placeholderNode : Node :=
  { tag := "p", className := "muted", innerHTML := "No recent activity." }

/-- The `div` built for one record (lines 157-166). -/
def activityItem (now : Int) (d : ActivityRecord) : Node :=
  let title := escapeHtml (if d.title.truthy then d.title else JsVal.str "No title")
  let date := match d.date with
    | some t => t
    | none => now
  let source := if d.source.truthy then escapeHtml d.source else ""
  { tag := "div", className := "activity-item",
    innerHTML :=
      "<div class=\"activity-avatar\">🟢</div>\n          <div>\n            <div style=\"font-weight:700\">"
      ++ title ++ " "
      ++ (if source != "" then
            "<span style=\"font-weight:600;color:#666;font-size:12px\"> (via " ++ source ++ ")</span>"
          else "")
      ++ "</div>\n            <div class=\"small muted\">" ++ timeAgo now (some date)
      ++ "</div>\n          </div>" }

/-- The page after the children of `#recentActivitiesList` are replaced by `nodes`. -/
def Dom.withList (dom : Dom) (nodes : List Node) : Dom :=
  { dom with recentActivitiesList := some nodes }

/-- The loop `snap.forEach(doc => ... recentActivitiesList.appendChild(div))`. -/
def appendItems (now : Int) (children : List Node) : List ActivityRecord → List Node
  | [] => children
  | d :: rest => appendItems now (children ++ [activityItem now d]) rest

/-- The snapshot callback of the recent-activities subscription. -/
def recentActivitiesHandler (now : Int) (snap : List ActivityRecord) (dom : Dom) :
    Except JsError Dom :=
  match dom.recentActivitiesList with
  | none => Except.error (JsError.typeError "recentActivitiesList is null")
  | some _ =>
    let cleared : List Node := []
    if snap.length = 0 then Except.ok (dom.withList [placeholderNode])
    else Except.ok (dom.withList (appendItems now cleared snap))

/-- An item node of the list: a `div` of class `activity-item`. -/
def Node.isItem (n : Node) : Bool :=
  n.tag == "div" && n.className == "activity-item"

/-- The placeholder node: a `p` of class `muted`. -/
def Node.isPlaceholder (n : Node) : Bool :=
  n.tag == "p" && n.className == "muted"

/-- The records a query delivers out of the ordered records that match it:
`limit(n)` keeps the first `n`, as the backend interface documents it. -/
def Query.delivered {α : Type} (q : Query) (ordered : List α) : List α :=
  match q.limit with
  | some n => ordered.take n
  | none => ordered

/-- A page on which every element `dashboard.js` writes to exists and is empty. -/
def blankDom : Dom :=
  { activeProjectsValue := some "", inProgressTargetsValue := some "", violationsValue := some "",
    birthdaysValue := some "", academicValue := some "", assetsValue := some "",
    recentActivitiesList := some [] }

/-- Eight activity records titled `a1` to `a8`. -/
def eightActivities : List ActivityRecord :=
  (List.range 8).map (fun i =>
    { title := JsVal.str ("a" ++ toString (i + 1)), date := some 0, source := JsVal.undefined })

/-! ## The sidebar controller (sidebar.js)

The controller is installed only when `#sidebar`, `#sidebarToggle` and
`#sidebarBackdrop` all exist (line 6); the state below is that of a page on
which they do. -/

/-- What the controller reads and writes: the class `active` of the drawer,
the attribute `aria-expanded` of the toggle (`none` while unset), the property
`hidden` of the backdrop, and the inline `overflow` of the root element and of
the body. -/
structure SidebarState where
  active : Bool
  ariaExpanded : Option String
  backdropHidden : Bool
  rootOverflow : String
  bodyOverflow : String
  deriving DecidableEq, Repr

namespace Sidebar

/-- The arrow function `open` (lines 8-15). -/
def openDrawer (_s : SidebarState) : SidebarState :=
  { active := true, ariaExpanded := some "true", backdropHidden := false,
    rootOverflow := "hidden", bodyOverflow := "hidden" }

/-- The arrow function `close` (lines 17-23). -/
def close (_s : SidebarState) : SidebarState :=
  { active := false, ariaExpanded := some "false", backdropHidden := true,
    rootOverflow := "", bodyOverflow := "" }

/-- The click listener of the toggle (lines 25-28). -/
def onToggleClick (s : SidebarState) : SidebarState :=
  let isOpen := s.active
  if isOpen then close s else openDrawer s

/-- The keydown listener (lines 32-34). -/
def onKeydown (key : String) (s : SidebarState) : SidebarState :=
  if key = "Escape" then close s else s

/-- The media query `(max-width: 1024px)` on a viewport `width` pixels wide. -/
def matchesMaxWidth1024 (width : Nat) : Bool :=
  decide (width ≤ 1024)

/-- The function `syncWithViewport` (lines 37-46). -/
def syncWithViewport (width : Nat) (s : SidebarState) : SidebarState :=
  if matchesMaxWidth1024 width then close s
  else { s with active := false, backdropHidden := true, rootOverflow := "", bodyOverflow := "" }

/-- The events the controller listens to. -/
inductive Event where
  | toggleClick : Event
  | backdropClick : Event
  | keydown : String → Event
  | resize : Nat → Event
  deriving DecidableEq, Repr

/-- One event, dispatched to its listener. -/
def step (s : SidebarState) : Event → SidebarState
  | Event.toggleClick => onToggleClick s
  | Event.backdropClick => close s
  | Event.keydown key => onKeydown key s
  | Event.resize width => syncWithViewport width s

/-- The drawer is open. -/
def isOpen (s : SidebarState) : Prop := s.active = true

/-- Both scroll containers are locked. -/
def scrollLocked (s : SidebarState) : Prop :=
  s.rootOverflow = "hidden" ∧ s.bodyOverflow = "hidden"

/-- Both scroll containers are released. -/
def scrollReleased (s : SidebarState) : Prop :=
  s.rootOverflow = "" ∧ s.bodyOverflow = ""

end Sidebar

/-! ## Active-link highlighting (dashboard.js 25-34 and 243-256) -/

/-- A navigation entry: its `href` attribute and `data-key` (`none` when
absent) and whether its class list holds `active`. -/
structure NavItem where
  href : Option String
  dataKey : Option String
  active : Bool
  deriving DecidableEq, Repr

/-- The last element of `pathname.split('/')`: the characters after the last
slash, or the whole string when it has none. -/
def lastSegment (pathname : List Char) : List Char :=
  pathname.foldl (fun acc c => if c = '/' then [] else acc ++ [c]) []

/-- The expression `window.location.pathname.split('/').pop() || 'dashboard.html'`. -/
def currentPage (pathname : String) : String :=
  let last := String.mk (lastSegment pathname.data)
  if last = "" then "dashboard.html" else last

/-- The body of the second `forEach`: the two tests on one entry. -/
def markIfMatching (path : String) (i : NavItem) : NavItem :=
  let href := i.href.getD ""
  let key := i.dataKey.getD ""
  if href ≠ "" ∧ path.data <:+ href.data then { i with active := true }
  else if key ≠ "" ∧ key.data <:+: path.data then { i with active := true }
  else i

/-- The function `highlightActive` on the entries in DOM order, for the page
filename `path`; lines 28-34 of `dashboard.js` are the same two loops over
`.sidebar-item`. -/
def highlightActive (path : String) (items : List NavItem) : List NavItem :=
  let cleared := items.map (fun i => { i with active := false })
  cleared.map (markIfMatching path)

/-- An entry matches the page: its non-empty `href` ends with the filename, or
the filename contains its non-empty key. -/
def navMatches (path : String) (i : NavItem) : Bool :=
  decide (((i.href.getD "") ≠ "" ∧ path.data <:+ (i.href.getD "").data) ∨
    ((i.dataKey.getD "") ≠ "" ∧ (i.dataKey.getD "").data <:+: path.data))

/-- A sidebar with two entries whose `href` both end with `dashboard.html`. -/
def twoMatchingItems : List NavItem :=
  [ { href := some "dashboard.html", dataKey := some "dashboard", active := false },
    { href := some "admin/dashboard.html", dataKey := none, active := false },
    { href := some "projects.html", dataKey := some "projects", active := true } ]

/-! ## The login page (login.js) -/

/-- The element `#authLoading`: whether its class list holds `hidden`, and its
inline `pointer-events`. -/
structure Overlay where
  hiddenClass : Bool
  pointerEvents : String
  deriving DecidableEq, Repr

/-- The state of the login page: whether the SDK is present, whether the
readiness poll is running, whether `onAuthStateChanged` has been subscribed,
the variable `authResolved`, whether `fallbackTimer` is still scheduled, the
overlay (`none` when the element is absent), the page navigated to, and the
console. -/
structure LoginState where
  sdkPresent : Bool
  polling : Bool
  subscribed : Bool
  authResolved : Bool
  timerPending : Bool
  overlay : Option Overlay
  location : Option String
  console : List String
  deriving DecidableEq, Repr

namespace Login

/-- The function `hideOverlayImmediately`. -/
def hideOverlayImmediately (s : LoginState) : LoginState :=
  match s.overlay with
  | none => s
  | some _ => { s with overlay := some { hiddenClass := true, pointerEvents := "none" } }

/-- The callback passed to `whenFirebaseReady` (lines 94-119), up to the
subscription. -/
def readyCallback (s : LoginState) : LoginState :=
  if !s.sdkPresent then
    hideOverlayImmediately { s with console := s.console ++ ["[login] Firebase Auth not available"] }
  else { s with subscribed := true }

/-- The events of the page. `pollTick over` is a run of the interval callback
of `whenFirebaseReady`, `over` telling whether more than `FIREBASE_MAX_WAIT_MS`
have passed; `sdkLoaded` is the SDK script finishing to load. -/
inductive Event where
  | sdkLoaded : Event
  | pollTick : Bool → Event
  | authState : Bool → Event
  | fallbackTimer : Event
  | continueClick : Event
  deriving DecidableEq, Repr

/-- The page right after the script has run: the fallback timer is scheduled
and `whenFirebaseReady` has either called back at once or started polling. -/
def init (sdkPresent : Bool) (overlay : Option Overlay) : LoginState :=
  let s0 : LoginState :=
    { sdkPresent := sdkPresent, polling := false, subscribed := false, authResolved := false,
      timerPending := true, overlay := overlay, location := none, console := [] }
  if sdkPresent then readyCallback s0 else { s0 with polling := true }

/-- The interval callback of `whenFirebaseReady` (lines 80-91). -/
def onPollTick (over : Bool) (s : LoginState) : LoginState :=
  if s.sdkPresent then readyCallback { s with polling := false }
  else if over then
    readyCallback (hideOverlayImmediately
      { s with polling := false,
               console := s.console ++ ["[login] firebase did not become ready within timeout"] })
  else s

/-- The listener passed to `onAuthStateChanged` (lines 105-118). -/
def onAuthStateChanged (user : Bool) (s : LoginState) : LoginState :=
  let s1 := { s with authResolved := true, timerPending := false,
                     console := s.console ++ ["[login] onAuthStateChanged fired"] }
  if user then { s1 with location := some "dashboard.html" }
  else hideOverlayImmediately s1

/-- The callback of `fallbackTimer` (lines 69-74). -/
def onFallbackTimer (s : LoginState) : LoginState :=
  let s1 := { s with timerPending := false }
  if !s1.authResolved then
    hideOverlayImmediately
      { s1 with console := s1.console ++ ["[login] auth did not resolve within 1500ms"] }
  else s1

/-- One event. A callback runs only while it is registered: the poll while the
interval is active, the auth listener once subscribed, the timer while it is
scheduled. -/
def step (s : LoginState) : Event → LoginState
  | Event.sdkLoaded => { s with sdkPresent := true }
  | Event.pollTick over => if s.polling then onPollTick over s else s
  | Event.authState user => if s.subscribed then onAuthStateChanged user s else s
  | Event.fallbackTimer => if s.timerPending then onFallbackTimer s else s
  | Event.continueClick => hideOverlayImmediately s

/-- A trace of events, from a state. -/
def run (s : LoginState) (trace : List Event) : LoginState :=
  trace.foldl step s

/-- The overlay exists and is hidden. -/
def overlayHidden (s : LoginState) : Prop :=
  ∃ o, s.overlay = some o ∧ o.hiddenClass = true

/-- Whether an event is an auth-state event. -/
def Event.isAuthState : Event → Bool
  | Event.authState _ => true
  | _ => false

end Login

/-- The five entities `escapeHtml` writes. -/
def htmlEntities : List (List Char) :=
  ["&amp;".data, "&lt;".data, "&gt;".data, "&quot;".data, "&#39;".data]

/-- Every `&` of `out` is the first character of one of the five entities. -/
def ampersandsStartEntities (out : List Char) : Prop :=
  ∀ pre post, out = pre ++ '&' :: post → ∃ ent ∈ htmlEntities, ent <+: '&' :: post

/-- The local `title` of the item callback (line 158). -/
def itemTitle (d : ActivityRecord) : String :=
  escapeHtml (if d.title.truthy then d.title else JsVal.str "No title")

/-- The local `source` of the item callback (line 160). -/
def itemSource (d : ActivityRecord) : String :=
  if d.source.truthy then escapeHtml d.source else ""

/-- The template literal of lines 162-166 with its three interpolated values. -/
def itemMarkup (title source time : String) : String :=
  "<div class=\"activity-avatar\">🟢</div>\n          <div>\n            <div style=\"font-weight:700\">"
  ++ title ++ " "
  ++ (if source != "" then
        "<span style=\"font-weight:600;color:#666;font-size:12px\"> (via " ++ source ++ ")</span>"
      else "")
  ++ "</div>\n            <div class=\"small muted\">" ++ time
  ++ "</div>\n          </div>"

/-- A record whose title and source try to open tags and close an attribute. -/
def hostileRecord : ActivityRecord :=
  { title := JsVal.str "<img src=x onerror='a()'>\"",
    date := some 0,
    source := JsVal.str "</span><script>" }

/-! ## Theorems -/

theorem strictNe_pair_eq_not_closed (d : ProjectRecord) :
    (d.status.strictNe "Completed" && d.status.strictNe "Cancelled") = !isClosedStatus d := by
  cases d with
  | mk s =>
    cases s <;> simp [JsVal.strictNe, isClosedStatus, bne, Bool.beq_eq_decide_eq]

theorem countActiveFrom_eq (snap : List ProjectRecord) (cnt : Nat) :
    countActiveFrom cnt snap = cnt + (snap.length - snap.countP isClosedStatus) := by
  induction snap generalizing cnt with
  | nil => simp [countActiveFrom]
  | cons d rest ih =>
    have hle : rest.countP isClosedStatus ≤ rest.length := List.countP_le_length _
    simp only [countActiveFrom, strictNe_pair_eq_not_closed, List.countP_cons, List.length_cons]
    cases h : isClosedStatus d
    · simp [ih]; omega
    · simp [ih]

/-- C1: for a snapshot of N project records of which K have status `Completed`
or `Cancelled`, the client-side counting handler writes the decimal string of
N - K to the active-projects display (and leaves every other element alone). -/
theorem C1_active_count_display (snap : List ProjectRecord) (dom : Dom)
    (hel : dom.activeProjectsValue.isSome) :
    snap.countP isClosedStatus ≤ snap.length ∧
    activeProjectsLocalHandler snap dom =
      Except.ok { dom with
        activeProjectsValue := some (toString (snap.length - snap.countP isClosedStatus)) } := by
  refine ⟨List.countP_le_length _, ?_⟩
  unfold activeProjectsLocalHandler Dom.setActiveProjects
  cases h : dom.activeProjectsValue with
  | none => simp [h] at hel
  | some old => simp [countActiveFrom_eq]

theorem activeProjectsLocalHandler_eq (snap : List ProjectRecord) (dom : Dom) :
    activeProjectsLocalHandler snap dom =
      dom.setActiveProjects (toString (snap.length - snap.countP isClosedStatus)) := by
  simp [activeProjectsLocalHandler, countActiveFrom_eq]

/-- C1 at a snapshot of four records, two of them closed, one without status. -/
theorem C1_active_count_display_witness :
    activeProjectsLocalHandler
      [⟨JsVal.str "Completed"⟩, ⟨JsVal.undefined⟩, ⟨JsVal.str "Cancelled"⟩, ⟨JsVal.str "Planning"⟩]
      ⟨some "", none, none, none, none, none, none⟩ =
      Except.ok ⟨some "2", none, none, none, none, none, none⟩ :=
  (C1_active_count_display
    [⟨JsVal.str "Completed"⟩, ⟨JsVal.undefined⟩, ⟨JsVal.str "Cancelled"⟩, ⟨JsVal.str "Planning"⟩]
    ⟨some "", none, none, none, none, none, none⟩ rfl).2

/-- C2, as stated, fails for the targets subscription: on a backend whose
`where` rejects the equality filter, `initListeners` establishes no
subscription on `targetListItems` at all and no callback that writes to the
targets display, although the other six subscriptions are established. -/
theorem C2_targets_have_no_fallback :
    (dbRejecting (fun f => f == Filter.eq "status" "In Progress")).accepts targetsQuery = false ∧
    (∀ s ∈ (initListeners (some (dbRejecting (fun f => f == Filter.eq "status" "In Progress"))) 0).subs,
      s.query.collection ≠ "targetListItems" ∧ s.handler.target ≠ "#inProgressTargetsValue") ∧
    (initListeners (some (dbRejecting (fun f => f == Filter.eq "status" "In Progress"))) 0).subs.length = 6 := by
  decide

/-- C2, amended: on a backend that accepts the unfiltered queries and the
academic-events query, `initListeners` never throws; the active-projects
subscription is the filtered one or, when that is rejected, the unfiltered one
with the locally counting callback (which writes the number of records whose
status is neither `Completed` nor `Cancelled` to the active-projects display);
a rejected targets subscription is logged and not replaced; and the five later
subscriptions are set up in every case. -/
theorem C2_fallback_only_for_projects (db : Db) (startOfToday : Int)
    (hproj : db.accepts projectsPlainQuery = true)
    (hviol : db.accepts violationsQuery = true)
    (hbirth : db.accepts birthdaysQuery = true)
    (hacad : db.accepts (academicQuery startOfToday) = true)
    (hassets : db.accepts assetsQuery = true)
    (hact : db.accepts activitiesQuery = true) :
    (initListeners (some db) startOfToday).subs =
      [if db.accepts projectsFilteredQuery
        then { query := projectsFilteredQuery, handler := Handler.activeProjectsSize }
        else { query := projectsPlainQuery, handler := Handler.activeProjectsLocal }] ++
      (if db.accepts targetsQuery
        then [{ query := targetsQuery, handler := Handler.targetsSize }] else []) ++
      laterSubscriptions startOfToday ∧
    (initListeners (some db) startOfToday).console =
      (if db.accepts targetsQuery then []
        else [ConsoleEntry.error (JsError.queryError "targetListItems")]) ∧
    (initListeners (some db) startOfToday).thrown = none ∧
    Handler.activeProjectsLocal.target = Handler.activeProjectsSize.target ∧
    Handler.activeProjectsLocal.onProjects = some activeProjectsLocalHandler ∧
    ∀ (snap : List ProjectRecord) (dom : Dom),
      activeProjectsLocalHandler snap dom =
        dom.setActiveProjects (toString (snap.length - snap.countP isClosedStatus)) := by
  refine ⟨?_, ?_, ?_, rfl, rfl, activeProjectsLocalHandler_eq⟩ <;>
    cases hp : db.accepts projectsFilteredQuery <;>
    cases ht : db.accepts targetsQuery <;>
    simp [initListeners, projectsStep, targetsStep, plainStep, establish, laterSubscriptions,
      hproj, hviol, hbirth, hacad, hassets, hact, hp, ht] <;> rfl

/-- C2 amended, at a backend whose `where` rejects both the exclusion-set and
the equality operator. -/
theorem C2_fallback_only_for_projects_witness :
    (initListeners (some (dbRejecting (fun f =>
        match f with
        | Filter.ge _ _ => false
        | _ => true))) 0).subs =
      [{ query := projectsPlainQuery, handler := Handler.activeProjectsLocal }] ++
      laterSubscriptions 0 :=
  (C2_fallback_only_for_projects (dbRejecting (fun f =>
        match f with
        | Filter.ge _ _ => false
        | _ => true)) 0 rfl rfl rfl rfl rfl rfl).1

/-- The academic-events subscription sits outside any `try`: when its query is
rejected the exception escapes `initListeners`, and the assets and
recent-activities subscriptions after it are never established. -/
theorem initListeners_academic_rejection_escapes :
    (initListeners (some (dbRejecting (fun f => f == Filter.ge "date" 0))) 0).thrown =
      some (JsError.queryError "academicEvents") ∧
    (initListeners (some (dbRejecting (fun f => f == Filter.ge "date" 0))) 0).subs.map
        (fun s => s.query.collection) =
      ["projectsPPM", "targetListItems", "studentViolations", "birthdayEvents"] := by
  decide

/-! ### The large-number formatter -/

theorem digitChar_spec (k : Nat) (hk : k < 10) :
    (Nat.digitChar k).isDigit = true ∧ (Nat.digitChar k).toNat - 48 = k := by
  interval_cases k <;> decide

theorem isDigit_ne_point (c : Char) (h : c.isDigit = true) : (c != '.') = true := by
  by_contra hc
  simp only [bne_iff_ne, ne_eq, Decidable.not_not] at hc
  subst hc
  revert h
  decide

theorem foldl_digits_acc (cs : List Char) (acc : Nat) :
    cs.foldl (fun acc c => 10 * acc + (c.toNat - 48)) acc =
      acc * 10 ^ cs.length + digitsValue cs := by
  induction cs generalizing acc with
  | nil => simp [digitsValue]
  | cons c cs ih =>
    simp only [List.foldl_cons, List.length_cons, digitsValue]
    rw [ih, ih (10 * 0 + (c.toNat - 48))]
    ring

theorem digitsValue_append (xs ys : List Char) :
    digitsValue (xs ++ ys) = digitsValue xs * 10 ^ ys.length + digitsValue ys := by
  unfold digitsValue
  rw [List.foldl_append, foldl_digits_acc]
  rfl

theorem digitsValue_replicate_zero (z : Nat) : digitsValue (List.replicate z '0') = 0 := by
  induction z with
  | zero => rfl
  | succ z ih =>
    have h : List.replicate (z + 1) '0' = ['0'] ++ List.replicate z '0' := rfl
    have h0 : digitsValue ['0'] = 0 := by decide
    rw [h, digitsValue_append, ih, h0]
    simp

theorem toDigitsCore_spec (fuel : Nat) : ∀ (n : Nat) (ds : List Char), n < fuel →
    ∃ xs, Nat.toDigitsCore 10 fuel n ds = xs ++ ds ∧ xs ≠ [] ∧
      (∀ c ∈ xs, c.isDigit = true) ∧ digitsValue xs = n := by
  induction fuel with
  | zero => intro n ds h; omega
  | succ fuel ih =>
    intro n ds h
    obtain ⟨hd, hv⟩ := digitChar_spec (n % 10) (Nat.mod_lt _ (by decide))
    simp only [Nat.toDigitsCore]
    by_cases h0 : n / 10 = 0
    · refine ⟨[Nat.digitChar (n % 10)], by simp [h0], by simp, by simpa using hd, ?_⟩
      simp only [digitsValue, List.foldl_cons, List.foldl_nil, hv]
      omega
    · obtain ⟨xs, hxs, hne, hall, hval⟩ := ih (n / 10) (Nat.digitChar (n % 10) :: ds) (by omega)
      refine ⟨xs ++ [Nat.digitChar (n % 10)], by simp [h0, hxs], by simp, ?_, ?_⟩
      · intro c hc
        rcases List.mem_append.1 hc with hc | hc
        · exact hall c hc
        · simp only [List.mem_singleton] at hc
          subst hc; exact hd
      · rw [digitsValue_append, hval]
        simp only [digitsValue, List.foldl_cons, List.foldl_nil, hv, List.length_singleton]
        omega

theorem toDigits_spec (n : Nat) :
    Nat.toDigits 10 n ≠ [] ∧ (∀ c ∈ Nat.toDigits 10 n, c.isDigit = true) ∧
      digitsValue (Nat.toDigits 10 n) = n := by
  obtain ⟨xs, hxs, hne, hall, hval⟩ := toDigitsCore_spec (n + 1) n [] (by omega)
  simp only [List.append_nil] at hxs
  unfold Nat.toDigits
  rw [hxs]
  exact ⟨hne, hall, hval⟩

theorem numeralValue_integer (a : List Char) (hne : a ≠ [])
    (ha : ∀ c ∈ a, c.isDigit = true) :
    numeralValue (String.mk a) = some (digitsValue a : ℚ) := by
  have htake : a.takeWhile (fun c => c != '.') = a :=
    List.takeWhile_eq_self_iff.2 (fun c hc => isDigit_ne_point c (ha c hc))
  have hdrop : a.dropWhile (fun c => c != '.') = [] :=
    List.dropWhile_eq_nil_iff.2 (fun c hc => isDigit_ne_point c (ha c hc))
  have hall : a.all Char.isDigit = true := List.all_eq_true.2 ha
  simp only [numeralValue, htake, hdrop, hall]
  simp [hne]

theorem numeralValue_point (a b : List Char) (hane : a ≠ []) (hbne : b ≠ [])
    (ha : ∀ c ∈ a, c.isDigit = true) (hb : ∀ c ∈ b, c.isDigit = true) :
    numeralValue (String.mk (a ++ '.' :: b)) =
      some ((digitsValue a : ℚ) + (digitsValue b : ℚ) / 10 ^ b.length) := by
  have hp : ∀ c ∈ a, (c != '.') = true := fun c hc => isDigit_ne_point c (ha c hc)
  have htake : (a ++ '.' :: b).takeWhile (fun c => c != '.') = a := by
    rw [List.takeWhile_append_of_pos hp]
    simp
  have hdrop : (a ++ '.' :: b).dropWhile (fun c => c != '.') = '.' :: b := by
    rw [List.dropWhile_append_of_pos hp]
    simp
  have halla : a.all Char.isDigit = true := List.all_eq_true.2 ha
  have hallb : b.all Char.isDigit = true := List.all_eq_true.2 hb
  simp only [numeralValue, htake, hdrop, halla, hallb]
  simp [hane, hbne]

theorem fixedDigits_zero (n : Nat) : fixedDigits n 0 = Nat.toDigits 10 n := by
  simp [fixedDigits]

theorem fixedDigits_split (n f : Nat) (hf : f ≠ 0) :
    ∃ a b, fixedDigits n f = a ++ '.' :: b ∧ a ≠ [] ∧ b.length = f ∧
      (∀ c ∈ a, c.isDigit = true) ∧ (∀ c ∈ b, c.isDigit = true) ∧
      digitsValue a * 10 ^ f + digitsValue b = n := by
  obtain ⟨hne, hall, hval⟩ := toDigits_spec n
  have key : ∀ m : List Char, f < m.length → (∀ c ∈ m, c.isDigit = true) → digitsValue m = n →
      ∃ a b, m.take (m.length - f) ++ '.' :: m.drop (m.length - f) = a ++ '.' :: b ∧ a ≠ [] ∧
        b.length = f ∧ (∀ c ∈ a, c.isDigit = true) ∧ (∀ c ∈ b, c.isDigit = true) ∧
        digitsValue a * 10 ^ f + digitsValue b = n := by
    intro m hlen hm hv
    refine ⟨m.take (m.length - f), m.drop (m.length - f), rfl, ?_, ?_, ?_, ?_, ?_⟩
    · intro h
      have := congrArg List.length h
      simp only [List.length_take, List.length_nil] at this
      omega
    · simp only [List.length_drop]; omega
    · intro c hc; exact hm c (List.mem_of_mem_take hc)
    · intro c hc; exact hm c (List.mem_of_mem_drop hc)
    · have hb : (m.drop (m.length - f)).length = f := by simp only [List.length_drop]; omega
      have := digitsValue_append (m.take (m.length - f)) (m.drop (m.length - f))
      rw [List.take_append_drop, hb, hv] at this
      exact this.symm
  simp only [fixedDigits, hf, ne_eq, not_false_eq_true, if_true]
  by_cases hle : (Nat.toDigits 10 n).length ≤ f
  · simp only [hle, if_true]
    apply key
    · simp only [List.length_append, List.length_replicate]; omega
    · intro c hc
      rcases List.mem_append.1 hc with hc | hc
      · rw [(List.mem_replicate.1 hc).2]; decide
      · exact hall c hc
    · rw [digitsValue_append, digitsValue_replicate_zero, hval]; simp
  · simp only [hle, if_false]
    exact key _ (by omega) hall hval

theorem trimmed_value (n f : Nat) :
    numeralValue (String.mk
      (if f > 0 ∧ ('.' :: List.replicate f '0') <:+ fixedDigits n f
        then (fixedDigits n f).take ((fixedDigits n f).length - (f + 1))
        else fixedDigits n f)) = some ((n : ℚ) / 10 ^ f) := by
  by_cases hf : f = 0
  · subst hf
    obtain ⟨hne, hall, hval⟩ := toDigits_spec n
    simp only [gt_iff_lt, lt_self_iff_false, false_and, if_false, fixedDigits_zero]
    rw [numeralValue_integer _ hne hall, hval]
    simp
  · obtain ⟨a, b, hab, hane, hblen, ha, hb, hval⟩ := fixedDigits_split n f hf
    have hpow : ((10 : ℚ) ^ f) ≠ 0 := pow_ne_zero _ (by norm_num)
    have hcast : (n : ℚ) = (digitsValue a : ℚ) * 10 ^ f + (digitsValue b : ℚ) := by
      rw [← hval]; push_cast; ring
    rw [hab]
    by_cases hsuf : ('.' :: List.replicate f '0') <:+ a ++ '.' :: b
    · have hb0 : b = List.replicate f '0' := by
        obtain ⟨pre, hpre⟩ := hsuf
        have := (List.append_inj' hpre (by simp [hblen])).2
        simpa using this.symm
      have hlen : (a ++ '.' :: b).length - (f + 1) = a.length := by
        simp only [List.length_append, List.length_cons, hblen]; omega
      have hvb : digitsValue b = 0 := by rw [hb0]; exact digitsValue_replicate_zero f
      rw [if_pos ⟨Nat.pos_of_ne_zero hf, hsuf⟩, hlen, List.take_left', numeralValue_integer a hane ha]
      · rw [hcast, hvb]; field_simp
      · rfl
    · rw [if_neg (fun h => hsuf h.2), numeralValue_point a b hane
        (by intro h; rw [h] at hblen; exact hf hblen.symm) ha hb, hblen, hcast]
      field_simp

theorem roundScaled_close (x : ℚ) (f : Nat) (hx : 0 ≤ x) :
    |(roundScaled x f : ℚ) - x * 10 ^ f| ≤ 1 / 2 := by
  have hy : 0 ≤ x * 10 ^ f := mul_nonneg hx (by positivity)
  have hfl : 0 ≤ ⌊x * 10 ^ f + 1 / 2⌋ := Int.floor_nonneg.2 (by linarith)
  have hcast : (roundScaled x f : ℚ) = (⌊x * 10 ^ f + 1 / 2⌋ : ℚ) := by
    unfold roundScaled
    have : ((⌊x * 10 ^ f + 1 / 2⌋.toNat : ℤ) : ℚ) = (⌊x * 10 ^ f + 1 / 2⌋ : ℚ) := by
      rw [Int.toNat_of_nonneg hfl]
    exact_mod_cast this
  rw [hcast, abs_le]
  have h1 := Int.floor_le (x * 10 ^ f + 1 / 2)
  have h2 := Int.lt_floor_add_one (x * 10 ^ f + 1 / 2)
  constructor <;> linarith

theorem findSuffix_mem (num : ℚ) : findSuffix num ∈ suffixMap ∧ 0 < (findSuffix num).threshold := by
  unfold findSuffix suffixMap
  simp only [List.find?]
  repeat' split
  all_goals exact ⟨by simp, by norm_num⟩

theorem findSuffix_zero : findSuffix 0 = ⟨"", 1⟩ := by
  unfold findSuffix suffixMap
  norm_num [List.find?]

theorem roundScaled_zero (f : Nat) : roundScaled 0 f = 0 := by
  norm_num [roundScaled]

theorem roundHalfEven_close (y : ℚ) : |(roundHalfEven y : ℚ) - y| ≤ 1 / 2 := by
  unfold roundHalfEven
  have h1 := Int.floor_le y
  have h2 := Int.lt_floor_add_one y
  simp only
  split_ifs with ha hb hc
  · rw [abs_le]; constructor <;> linarith
  · rw [abs_le]; push_cast; constructor <;> linarith
  · rw [abs_le]; constructor <;> linarith
  · rw [abs_le]; push_cast; constructor <;> linarith

theorem roundHalfEven_nonneg (y : ℚ) (hy : 0 ≤ y) : 0 ≤ roundHalfEven y := by
  unfold roundHalfEven
  have h0 : 0 ≤ ⌊y⌋ := Int.floor_nonneg.2 hy
  simp only
  split_ifs <;> omega

theorem roundHalfEven_eq (y : ℚ) (n : ℤ) (h : |y - n| < 1 / 2) : roundHalfEven y = n := by
  have hc := roundHalfEven_close y
  rw [abs_lt] at h
  rw [abs_le] at hc
  have h1 : ((roundHalfEven y : ℤ) : ℚ) < (n : ℚ) + 1 := by linarith
  have h2 : (n : ℚ) < ((roundHalfEven y : ℤ) : ℚ) + 1 := by linarith
  have h3 : roundHalfEven y < n + 1 := by exact_mod_cast h1
  have h4 : n < roundHalfEven y + 1 := by exact_mod_cast h2
  omega

theorem binaryExponent_eq (x : ℚ) (e : ℤ) (h1 : (2 : ℚ) ^ e ≤ |x|) (h2 : |x| < (2 : ℚ) ^ (e + 1))
    (he : -1022 ≤ e) : binaryExponent x = e := by
  have hpos : 0 < |x| := lt_of_lt_of_le (by positivity) h1
  have hle : e ≤ Int.log 2 |x| := (Int.zpow_le_iff_le_log (by norm_num) hpos).1 (by exact_mod_cast h1)
  have hlt : Int.log 2 |x| < e + 1 :=
    (Int.lt_zpow_iff_log_lt (by norm_num) hpos).1 (by exact_mod_cast h2)
  unfold binaryExponent
  rw [max_eq_left (by omega)]
  omega

theorem toBinary64_eq (x : ℚ) (e n : ℤ) (h1 : (2 : ℚ) ^ e ≤ |x|) (h2 : |x| < (2 : ℚ) ^ (e + 1))
    (he : -1022 ≤ e) (hn : |x / (2 : ℚ) ^ (e - 52) - n| < 1 / 2) :
    toBinary64 x = (n : ℚ) * (2 : ℚ) ^ (e - 52) := by
  unfold toBinary64
  rw [binaryExponent_eq x e h1 h2 he, roundHalfEven_eq _ n hn]

theorem toBinary64_zero : toBinary64 0 = 0 := by
  norm_num [toBinary64, roundHalfEven]

theorem toBinary64_close (x : ℚ) :
    |toBinary64 x - x| ≤ (2 : ℚ) ^ (binaryExponent x - 53) := by
  unfold toBinary64
  set u : ℚ := (2 : ℚ) ^ (binaryExponent x - 52) with hu
  have hupos : 0 < u := by positivity
  have hclose := roundHalfEven_close (x / u)
  have hrew : (roundHalfEven (x / u) : ℚ) * u - x =
      ((roundHalfEven (x / u) : ℚ) - x / u) * u := by
    field_simp
  rw [hrew, abs_mul, abs_of_pos hupos]
  have hhalf : (2 : ℚ) ^ (binaryExponent x - 53) = 1 / 2 * u := by
    rw [hu, show binaryExponent x - 53 = (binaryExponent x - 52) - 1 by ring,
      zpow_sub_one₀ (by norm_num)]
    ring
  rw [hhalf]
  exact mul_le_mul_of_nonneg_right hclose hupos.le

theorem toBinary64_nonneg (x : ℚ) (hx : 0 ≤ x) : 0 ≤ toBinary64 x := by
  unfold toBinary64
  have hupos : (0 : ℚ) < (2 : ℚ) ^ (binaryExponent x - 52) := by positivity
  have := roundHalfEven_nonneg (x / (2 : ℚ) ^ (binaryExponent x - 52)) (div_nonneg hx hupos.le)
  exact mul_nonneg (by exact_mod_cast this) hupos.le

theorem halfUlp_le_relative (x : ℚ) (hx : (2 : ℚ) ^ (-1022 : ℤ) ≤ x) :
    (2 : ℚ) ^ (binaryExponent x - 53) ≤ x * (2 : ℚ) ^ (-53 : ℤ) := by
  have hpos : 0 < x := lt_of_lt_of_le (by positivity) hx
  have hlog : (-1022 : ℤ) ≤ Int.log 2 x :=
    (Int.zpow_le_iff_le_log (by norm_num) hpos).1 (by exact_mod_cast hx)
  have he : binaryExponent x = Int.log 2 x := by
    unfold binaryExponent
    rw [abs_of_pos hpos]
    exact max_eq_left hlog
  rw [he, show Int.log 2 x - 53 = Int.log 2 x + (-53) by ring, zpow_add₀ (by norm_num)]
  have := Int.zpow_log_le_self (b := 2) (by norm_num) hpos
  exact mul_le_mul_of_nonneg_right (by exact_mod_cast this) (by positivity)

theorem toFixed_of_small (numberToString : ℚ → String) (x : ℚ) (f : Nat) (hx : 0 ≤ x)
    (hbig : x < 10 ^ 21) (hf : f ≤ 100) :
    toFixed numberToString x f = Except.ok (fixedDigits (roundScaled x f) f) := by
  unfold toFixed
  rw [if_neg (by omega)]
  simp only [if_neg (not_lt.2 hx), if_neg (not_le.2 hbig), List.nil_append]

theorem toFixed_rangeError (numberToString : ℚ → String) (x : ℚ) (f : Nat) (hf : 100 < f) :
    toFixed numberToString x f =
      Except.error (JsError.rangeError "toFixed() digits argument must be between 0 and 100") := by
  unfold toFixed
  rw [if_pos hf]

theorem formatLargeNumberWithSuffix_of_small (numberToString : ℚ → String) (m : ℚ) (p : Nat)
    (hq0 : 0 ≤ jsDivide m (findSuffix m).threshold)
    (hq : jsDivide m (findSuffix m).threshold < 10 ^ 21) (hp : p ≤ 100) :
    formatLargeNumberWithSuffix numberToString m p =
      Except.ok ("Rp " ++ String.mk
        (if p > 0 ∧ ('.' :: List.replicate p '0') <:+
            fixedDigits (roundScaled (jsDivide m (findSuffix m).threshold) p) p
          then (fixedDigits (roundScaled (jsDivide m (findSuffix m).threshold) p) p).take
            ((fixedDigits (roundScaled (jsDivide m (findSuffix m).threshold) p) p).length - (p + 1))
          else fixedDigits (roundScaled (jsDivide m (findSuffix m).threshold) p) p)
        ++ (findSuffix m).suffix) := by
  unfold formatLargeNumberWithSuffix
  simp only [toFixed_of_small numberToString _ p hq0 hq hp]

/-- C3, as stated, fails in two ways. At the double 5.753351748295353e27 and
precision 1 the quotient by 10^12 is rounded to the double 5753351748295353,
so the output `Rp 5753351748295353T` is 401695346688 away from the input
against a bound of 5 * 10^10. At precision 101 the call throws a
`RangeError`. -/
theorem C3_bound_fails_in_double_arithmetic :
    formatLargeNumberWithSuffix (fun _ => "") 5753351748295352598304653312 1 =
      Except.ok "Rp 5753351748295353T" ∧
    numeralValue "5753351748295353" = some 5753351748295353 ∧
    ¬ (|(5753351748295353 : ℚ) * 10 ^ 12 - 5753351748295352598304653312| ≤
        10 ^ 12 * (10 ^ 1)⁻¹ / 2) ∧
    formatLargeNumberWithSuffix (fun _ => "") 5 101 =
      Except.error (JsError.rangeError "toFixed() digits argument must be between 0 and 100") := by
  have hfind : findSuffix 5753351748295352598304653312 = ⟨"T", 10 ^ 12⟩ := by
    unfold findSuffix suffixMap
    norm_num [List.find?]
  have hdiv : jsDivide 5753351748295352598304653312 (10 ^ 12) = 5753351748295353 := by
    unfold jsDivide
    rw [toBinary64_eq _ 52 5753351748295353 (by norm_num [abs_of_pos])
      (by norm_num [abs_of_pos]) (by norm_num) (by norm_num [abs_lt])]
    norm_num
  have hround : roundScaled 5753351748295353 1 = 57533517482953530 := by
    norm_num [roundScaled]
    rfl
  refine ⟨?_, ?_, ?_, ?_⟩
  · rw [formatLargeNumberWithSuffix_of_small _ _ _ (by rw [hfind, hdiv]; norm_num)
      (by rw [hfind, hdiv]; norm_num) (by norm_num)]
    simp only [hfind, hdiv, hround]
    exact congrArg Except.ok (by decide)
  · have hv : digitsValue "5753351748295353".data = 5753351748295353 := by decide
    have h := numeralValue_integer "5753351748295353".data (by decide) (by decide)
    rw [hv] at h
    simpa using h
  · norm_num [abs_le]
  · simp only [formatLargeNumberWithSuffix, toFixed_rangeError _ _ 101 (by norm_num)]

/-- C3, amended: for a magnitude m ≥ 0 and a precision p ≤ 100 such that the
double quotient Q of m by the chosen threshold T is below 10^21, the output
is `Rp `, a decimal numeral denoting some v, and the suffix of T, where v is
within 10^(-p) / 2 of Q and Q is within half a unit in the last place of
m / T, so that |v * T - m| ≤ T * 10^(-p) / 2 + T * 2^(e - 53) with e the
binary exponent of m / T; that last term is at most m * 2^(-53) when
m / T ≥ 2^(-1022). At 0 with the default precision the output is exactly
`Rp 0`, and for every precision above 100 the call throws a `RangeError`. -/
theorem C3_format_within_double_rounding (numberToString : ℚ → String) (m : ℚ) (p : Nat)
    (hm : 0 ≤ m) (hp : p ≤ 100) (hq : jsDivide m (findSuffix m).threshold < 10 ^ 21) :
    (∃ (v : ℚ) (numeral : String) (e : SuffixEntry),
      e ∈ suffixMap ∧ e = findSuffix m ∧
      formatLargeNumberWithSuffix numberToString m p =
        Except.ok ("Rp " ++ numeral ++ e.suffix) ∧
      numeralValue numeral = some v ∧
      |v - jsDivide m e.threshold| ≤ (10 ^ p)⁻¹ / 2 ∧
      |jsDivide m e.threshold - m / e.threshold| ≤
        (2 : ℚ) ^ (binaryExponent (m / e.threshold) - 53) ∧
      |v * e.threshold - m| ≤ e.threshold * (10 ^ p)⁻¹ / 2 +
        e.threshold * (2 : ℚ) ^ (binaryExponent (m / e.threshold) - 53) ∧
      ((2 : ℚ) ^ (-1022 : ℤ) ≤ m / e.threshold →
        e.threshold * (2 : ℚ) ^ (binaryExponent (m / e.threshold) - 53) ≤
          m * (2 : ℚ) ^ (-53 : ℤ))) ∧
    formatLargeNumberWithSuffix numberToString 0 defaultPrecision = Except.ok "Rp 0" ∧
    (∀ (num : ℚ) (digits : Nat), 100 < digits →
      formatLargeNumberWithSuffix numberToString num digits =
        Except.error
          (JsError.rangeError "toFixed() digits argument must be between 0 and 100")) := by
  refine ⟨?_, ?_, ?_⟩
  · obtain ⟨hmem, hpos⟩ := findSuffix_mem m
    have hq0 : 0 ≤ jsDivide m (findSuffix m).threshold :=
      toBinary64_nonneg _ (div_nonneg hm hpos.le)
    have hpow : (0 : ℚ) < 10 ^ p := by positivity
    set T := (findSuffix m).threshold with hT
    set Q := jsDivide m T with hQ
    have hv : |(roundScaled Q p : ℚ) / 10 ^ p - Q| ≤ (10 ^ p)⁻¹ / 2 := by
      have hclose := roundScaled_close Q p hq0
      have hrew : (roundScaled Q p : ℚ) / 10 ^ p - Q =
          ((roundScaled Q p : ℚ) - Q * 10 ^ p) * (10 ^ p)⁻¹ := by
        field_simp
        ring
      rw [hrew, abs_mul, abs_of_pos (by positivity : (0 : ℚ) < (10 ^ p)⁻¹)]
      calc |(roundScaled Q p : ℚ) - Q * 10 ^ p| * (10 ^ p)⁻¹
          ≤ 1 / 2 * (10 ^ p)⁻¹ := mul_le_mul_of_nonneg_right hclose (by positivity)
        _ = (10 ^ p)⁻¹ / 2 := by ring
    have hd : |Q - m / T| ≤ (2 : ℚ) ^ (binaryExponent (m / T) - 53) := toBinary64_close (m / T)
    refine ⟨(roundScaled Q p : ℚ) / 10 ^ p, _, findSuffix m, hmem, rfl,
      formatLargeNumberWithSuffix_of_small numberToString m p hq0 hq hp, trimmed_value _ _,
      hv, hd, ?_, ?_⟩
    · have hrew : (roundScaled Q p : ℚ) / 10 ^ p * T - m =
          (((roundScaled Q p : ℚ) / 10 ^ p - Q) + (Q - m / T)) * T := by
        field_simp
        ring
      rw [hrew, abs_mul, abs_of_pos hpos]
      calc |(roundScaled Q p : ℚ) / 10 ^ p - Q + (Q - m / T)| * T
          ≤ ((10 ^ p)⁻¹ / 2 + (2 : ℚ) ^ (binaryExponent (m / T) - 53)) * T :=
            mul_le_mul_of_nonneg_right ((abs_add _ _).trans (add_le_add hv hd)) hpos.le
        _ = T * (10 ^ p)⁻¹ / 2 + T * (2 : ℚ) ^ (binaryExponent (m / T) - 53) := by ring
    · intro hnormal
      calc T * (2 : ℚ) ^ (binaryExponent (m / T) - 53)
          ≤ T * (m / T * (2 : ℚ) ^ (-53 : ℤ)) :=
            mul_le_mul_of_nonneg_left (halfUlp_le_relative _ hnormal) hpos.le
        _ = m * (2 : ℚ) ^ (-53 : ℤ) := by
            field_simp
            ring
  · have hz : jsDivide 0 (findSuffix 0).threshold = 0 := by
      rw [findSuffix_zero]
      simp [jsDivide, toBinary64_zero]
    rw [formatLargeNumberWithSuffix_of_small _ _ _ (by rw [hz]) (by rw [hz]; norm_num)
      (by decide)]
    have hz1 : jsDivide 0 1 = 0 := by simp [jsDivide, toBinary64_zero]
    simp only [findSuffix_zero, hz1, roundScaled_zero]
    exact congrArg Except.ok (by decide)
  · intro num digits hdigits
    simp only [formatLargeNumberWithSuffix, toFixed_rangeError _ _ digits hdigits]

theorem jsDivide_1450 : jsDivide 1450 (10 ^ 3) = 6530219459687219 / 2 ^ 52 := by
  unfold jsDivide
  rw [toBinary64_eq _ 0 6530219459687219 (by norm_num [abs_of_pos])
    (by norm_num [abs_of_pos]) (by norm_num) (by norm_num [abs_lt])]
  norm_num

theorem findSuffix_1450 : findSuffix 1450 = ⟨"K", 10 ^ 3⟩ := by
  unfold findSuffix suffixMap
  norm_num [List.find?]

/-- C3 amended, at m = 1450 and p = 1. -/
theorem C3_format_within_double_rounding_witness :
    ∃ (v : ℚ) (numeral : String) (e : SuffixEntry),
      e ∈ suffixMap ∧ e = findSuffix 1450 ∧
      formatLargeNumberWithSuffix (fun _ => "") 1450 1 =
        Except.ok ("Rp " ++ numeral ++ e.suffix) ∧
      numeralValue numeral = some v ∧
      |v - jsDivide 1450 e.threshold| ≤ (10 ^ 1)⁻¹ / 2 ∧
      |jsDivide 1450 e.threshold - 1450 / e.threshold| ≤
        (2 : ℚ) ^ (binaryExponent (1450 / e.threshold) - 53) ∧
      |v * e.threshold - 1450| ≤ e.threshold * (10 ^ 1)⁻¹ / 2 +
        e.threshold * (2 : ℚ) ^ (binaryExponent (1450 / e.threshold) - 53) ∧
      ((2 : ℚ) ^ (-1022 : ℤ) ≤ 1450 / e.threshold →
        e.threshold * (2 : ℚ) ^ (binaryExponent (1450 / e.threshold) - 53) ≤
          1450 * (2 : ℚ) ^ (-53 : ℤ)) :=
  (C3_format_within_double_rounding (fun _ => "") 1450 1 (by norm_num) (by norm_num)
    (by rw [findSuffix_1450, jsDivide_1450]; norm_num)).1

/-- Three evaluations: 1450 / 1000 is the double just below 1.45 and prints as
`1.4`; 1500 prints as `1.5`; 999999 rounds up to `1000.0` without changing
suffix. -/
theorem formatLargeNumberWithSuffix_examples (numberToString : ℚ → String) :
    formatLargeNumberWithSuffix numberToString 1450 1 = Except.ok "Rp 1.4K" ∧
    formatLargeNumberWithSuffix numberToString 1500 1 = Except.ok "Rp 1.5K" ∧
    formatLargeNumberWithSuffix numberToString 999999 1 = Except.ok "Rp 1000K" := by
  have f2 : findSuffix 1500 = ⟨"K", 10 ^ 3⟩ := by
    unfold findSuffix suffixMap
    norm_num [List.find?]
  have f3 : findSuffix 999999 = ⟨"K", 10 ^ 3⟩ := by
    unfold findSuffix suffixMap
    norm_num [List.find?]
  have d2 : jsDivide 1500 (10 ^ 3) = 3 / 2 := by
    unfold jsDivide
    rw [toBinary64_eq _ 0 6755399441055744 (by norm_num [abs_of_pos])
      (by norm_num [abs_of_pos]) (by norm_num) (by norm_num [abs_lt])]
    norm_num
  have d3 : jsDivide 999999 (10 ^ 3) = 8796084226114978 / 2 ^ 43 := by
    unfold jsDivide
    rw [toBinary64_eq _ 9 8796084226114978 (by norm_num [abs_of_pos])
      (by norm_num [abs_of_pos]) (by norm_num) (by norm_num [abs_lt])]
    norm_num
  have r1 : roundScaled (6530219459687219 / 2 ^ 52) 1 = 14 := by
    unfold roundScaled
    have h : ⌊(6530219459687219 / 2 ^ 52 : ℚ) * 10 ^ 1 + 1 / 2⌋ = 14 := by
      rw [Int.floor_eq_iff]
      norm_num
    rw [h]
    rfl
  have r2 : roundScaled (3 / 2) 1 = 15 := by
    norm_num [roundScaled]
    rfl
  have r3 : roundScaled (8796084226114978 / 2 ^ 43) 1 = 10000 := by
    unfold roundScaled
    have h : ⌊(8796084226114978 / 2 ^ 43 : ℚ) * 10 ^ 1 + 1 / 2⌋ = 10000 := by
      rw [Int.floor_eq_iff]
      norm_num
    rw [h]
    rfl
  refine ⟨?_, ?_, ?_⟩
  · rw [formatLargeNumberWithSuffix_of_small _ _ _
      (by rw [findSuffix_1450, jsDivide_1450]; norm_num)
      (by rw [findSuffix_1450, jsDivide_1450]; norm_num) (by norm_num)]
    simp only [findSuffix_1450, jsDivide_1450, r1]
    exact congrArg Except.ok (by decide)
  · rw [formatLargeNumberWithSuffix_of_small _ _ _ (by rw [f2, d2]; norm_num)
      (by rw [f2, d2]; norm_num) (by norm_num)]
    simp only [f2, d2, r2]
    exact congrArg Except.ok (by decide)
  · rw [formatLargeNumberWithSuffix_of_small _ _ _ (by rw [f3, d3]; norm_num)
      (by rw [f3, d3]; norm_num) (by norm_num)]
    simp only [f3, d3, r3]
    exact congrArg Except.ok (by decide)

/-! ### The relative-time formatter -/

theorem jsRound_eq_floor (a : Int) (b : Nat) (hb : 0 < b) :
    jsRound a b = ⌊(a : ℚ) / b + 1 / 2⌋ := by
  have h : (a : ℚ) / b + 1 / 2 = ((2 * a + b : ℤ) : ℚ) / ((2 * b : ℕ) : ℚ) := by
    have hb0 : (b : ℚ) ≠ 0 := by exact_mod_cast hb.ne.symm
    push_cast
    field_simp
    ring
  rw [h, Rat.floor_intCast_div_natCast]
  simp [jsRound]

theorem suffix_same_length (ds a b : List Char) (h : a.length = b.length) :
    a <:+ ds ++ b ↔ a = b := by
  constructor
  · rintro ⟨pre, hpre⟩
    exact (List.append_inj' hpre h).2
  · rintro rfl
    exact List.suffix_append _ _

theorem rendered_data (n : Int) (hn : 0 ≤ n) (unit : String) :
    (toString n ++ unit).data = Nat.toDigits 10 n.toNat ++ unit.data := by
  obtain ⟨m, rfl⟩ := Int.eq_ofNat_of_zero_le hn
  show (Nat.repr m ++ unit).data = _
  simp [Nat.repr, List.asString]

theorem rendered_ne_just_now (n : Int) (hn : 0 ≤ n) (unit : String) :
    toString n ++ unit ≠ "just now" := by
  intro h
  have hd := rendered_data n hn unit
  rw [h] at hd
  obtain ⟨hne, hall, -⟩ := toDigits_spec n.toNat
  cases hds : Nat.toDigits 10 n.toNat with
  | nil => exact hne hds
  | cons c cs =>
    rw [hds] at hd hall
    have hc : c = 'j' := by
      have := congrArg List.head? hd
      simpa using this.symm
    have := hall c (List.mem_cons_self _ _)
    rw [hc] at this
    revert this
    decide

theorem rendered_number (n : Int) (hn : 0 ≤ n) (unit : String)
    (hu : unit.data.takeWhile Char.isDigit = []) :
    outputNumber (toString n ++ unit) = n.toNat := by
  obtain ⟨hne, hall, hval⟩ := toDigits_spec n.toNat
  unfold outputNumber
  rw [rendered_data n hn, List.takeWhile_append_of_pos hall, hu]
  simpa using hval

theorem rendered_bucket (n : Int) (hn : 0 ≤ n) :
    outputBucket (toString n ++ "m ago") = some 1 ∧
    outputBucket (toString n ++ "h ago") = some 2 ∧
    outputBucket (toString n ++ "d ago") = some 3 := by
  refine ⟨?_, ?_, ?_⟩ <;>
  · unfold outputBucket
    rw [if_neg (rendered_ne_just_now n hn _), rendered_data n hn]
    simp only [suffix_same_length _ _ _ (by decide : "m ago".data.length = "m ago".data.length),
      suffix_same_length _ _ _ (by decide : "m ago".data.length = "h ago".data.length),
      suffix_same_length _ _ _ (by decide : "m ago".data.length = "d ago".data.length),
      suffix_same_length _ _ _ (by decide : "h ago".data.length = "h ago".data.length),
      suffix_same_length _ _ _ (by decide : "h ago".data.length = "d ago".data.length),
      suffix_same_length _ _ _ (by decide : "d ago".data.length = "d ago".data.length)]
    simp

theorem outputs_of_just_now :
    outputBucket "just now" = some 0 ∧ outputNumber "just now" = 0 := by
  decide

/-- C4: for elapsed times t1 = now - d1 ≤ t2 = now - d2 the output bucket of
`timeAgo` (0 for `just now`, 1, 2, 3 for the minute, hour and day forms) at t1
is at most the bucket at t2, within one bucket the number shown at t1 is at
most the number at t2, and at elapsed time 0 the output is `just now`. -/
theorem C4_timeAgo_monotone (now d1 d2 : Int) (h : now - d1 ≤ now - d2) :
    (∃ b1 b2, outputBucket (timeAgo now (some d1)) = some b1 ∧
      outputBucket (timeAgo now (some d2)) = some b2 ∧ b1 ≤ b2 ∧
      (b1 = b2 → outputNumber (timeAgo now (some d1)) ≤ outputNumber (timeAgo now (some d2)))) ∧
    timeAgo now (some now) = "just now" := by
  constructor
  · have key : ∀ d : Int, ∃ b n, outputBucket (timeAgo now (some d)) = some b ∧
        outputNumber (timeAgo now (some d)) = n ∧
        ((b = 0 ∧ n = 0 ∧ jsRound (now - d) 60000 < 1) ∨
         (b = 1 ∧ (n : Int) = jsRound (now - d) 60000 ∧ 1 ≤ jsRound (now - d) 60000 ∧
            jsRound (now - d) 60000 < 60) ∨
         (b = 2 ∧ (n : Int) = jsRound (jsRound (now - d) 60000) 60 ∧
            60 ≤ jsRound (now - d) 60000 ∧ jsRound (jsRound (now - d) 60000) 60 < 24) ∨
         (b = 3 ∧ (n : Int) = jsRound (jsRound (jsRound (now - d) 60000) 60) 24 ∧
            60 ≤ jsRound (now - d) 60000 ∧ 24 ≤ jsRound (jsRound (now - d) 60000) 60)) := by
      intro d
      simp only [timeAgo]
      by_cases h1 : jsRound (now - d) 60000 < 1
      · rw [if_pos h1]
        exact ⟨0, 0, outputs_of_just_now.1, outputs_of_just_now.2, Or.inl ⟨rfl, rfl, h1⟩⟩
      · rw [if_neg h1]
        by_cases h2 : jsRound (now - d) 60000 < 60
        · rw [if_pos h2]
          have hn : 0 ≤ jsRound (now - d) 60000 := by omega
          exact ⟨1, _, (rendered_bucket _ hn).1, rendered_number _ hn _ (by decide),
            Or.inr (Or.inl ⟨rfl, by omega, by omega, h2⟩)⟩
        · rw [if_neg h2]
          by_cases h3 : jsRound (jsRound (now - d) 60000) 60 < 24
          · rw [if_pos h3]
            have hn : 0 ≤ jsRound (jsRound (now - d) 60000) 60 := by
              unfold jsRound at h2 ⊢; omega
            exact ⟨2, _, (rendered_bucket _ hn).2.1, rendered_number _ hn _ (by decide),
              Or.inr (Or.inr (Or.inl ⟨rfl, by omega, by omega, h3⟩))⟩
          · rw [if_neg h3]
            have hn : 0 ≤ jsRound (jsRound (jsRound (now - d) 60000) 60) 24 := by
              unfold jsRound at h3 ⊢; omega
            exact ⟨3, _, (rendered_bucket _ hn).2.2, rendered_number _ hn _ (by decide),
              Or.inr (Or.inr (Or.inr ⟨rfl, by omega, by omega, by omega⟩))⟩
    obtain ⟨b1, n1, hb1, hn1, hc1⟩ := key d1
    obtain ⟨b2, n2, hb2, hn2, hc2⟩ := key d2
    refine ⟨b1, b2, hb1, hb2, ?_⟩
    rw [hn1, hn2]
    unfold jsRound at hc1 hc2
    omega
  · simp only [timeAgo, jsRound, sub_self]
    decide


/-- C4 at one hour and two hours of elapsed time. -/
theorem C4_timeAgo_monotone_witness :
    (7200000 : Int) - 3600000 ≤ 7200000 - 0 ∧
    ∃ b1 b2, outputBucket (timeAgo 7200000 (some 3600000)) = some b1 ∧
      outputBucket (timeAgo 7200000 (some 0)) = some b2 ∧ b1 ≤ b2 ∧
      (b1 = b2 → outputNumber (timeAgo 7200000 (some 3600000)) ≤
        outputNumber (timeAgo 7200000 (some 0))) :=
  ⟨by decide, (C4_timeAgo_monotone 7200000 3600000 0 (by decide)).1⟩

/-- The outputs at the bucket boundaries. -/
theorem timeAgo_boundaries :
    timeAgo 29999 (some 0) = "just now" ∧ timeAgo 30000 (some 0) = "1m ago" ∧
    timeAgo 3569999 (some 0) = "59m ago" ∧ timeAgo 3570000 (some 0) = "1h ago" ∧
    timeAgo 84569999 (some 0) = "23h ago" ∧ timeAgo 84570000 (some 0) = "1d ago" ∧
    timeAgo 0 none = "" := by
  decide

/-! ### The recent-activities list -/

theorem appendItems_eq (now : Int) (snap : List ActivityRecord) (children : List Node) :
    appendItems now children snap = children ++ snap.map (activityItem now) := by
  induction snap generalizing children with
  | nil => simp [appendItems]
  | cons d rest ih => simp [appendItems, ih]

theorem activityItem_isItem (now : Int) (d : ActivityRecord) :
    (activityItem now d).isItem = true ∧ (activityItem now d).isPlaceholder = false := by
  constructor <;> simp [activityItem, Node.isItem, Node.isPlaceholder]

theorem countP_items (now : Int) (snap : List ActivityRecord) :
    (snap.map (activityItem now)).countP Node.isItem = snap.length ∧
    (snap.map (activityItem now)).countP Node.isPlaceholder = 0 := by
  induction snap with
  | nil => simp
  | cons d rest ih =>
    simp [List.countP_cons, ih.1, ih.2, (activityItem_isItem now d).1,
      (activityItem_isItem now d).2]

theorem recentActivitiesHandler_eq (now : Int) (snap : List ActivityRecord) (dom : Dom)
    (hel : dom.recentActivitiesList.isSome) :
    recentActivitiesHandler now snap dom =
      Except.ok (dom.withList
        (if snap = [] then [placeholderNode] else snap.map (activityItem now))) := by
  unfold recentActivitiesHandler
  cases h : dom.recentActivitiesList with
  | none => simp [h] at hel
  | some old =>
    cases snap with
    | nil => simp
    | cons d rest => simp [appendItems_eq]

theorem rendered_items (now : Int) (snap : List ActivityRecord) :
    (if snap = [] then [placeholderNode] else snap.map (activityItem now)).filter Node.isItem =
      snap.map (activityItem now) := by
  cases snap with
  | nil =>
    have h : [placeholderNode].filter Node.isItem = [] := by decide
    simpa using h
  | cons d rest =>
    rw [if_neg (List.cons_ne_nil _ _), List.filter_eq_self]
    intro n hn
    obtain ⟨r, -, rfl⟩ := List.mem_map.1 hn
    exact (activityItem_isItem now r).1

/-- The page the handler leaves: the list holds the placeholder for an empty
snapshot and one item node per record otherwise, and no other element is
touched. -/
theorem recentActivitiesHandler_list (now : Int) (snap : List ActivityRecord) (dom : Dom)
    (hel : dom.recentActivitiesList.isSome) :
    ∃ page, recentActivitiesHandler now snap dom = Except.ok page ∧
      page.recentActivitiesList =
        some (if snap = [] then [placeholderNode] else snap.map (activityItem now)) ∧
      page.activeProjectsValue = dom.activeProjectsValue ∧
      page.inProgressTargetsValue = dom.inProgressTargetsValue ∧
      page.violationsValue = dom.violationsValue ∧
      page.birthdaysValue = dom.birthdaysValue ∧
      page.academicValue = dom.academicValue ∧
      page.assetsValue = dom.assetsValue :=
  ⟨_, recentActivitiesHandler_eq now snap dom hel, rfl, rfl, rfl, rfl, rfl, rfl, rfl⟩

/-- The handler itself has no cap: whatever snapshot it is called with, the
item nodes of the list are those of all its records, in order. The cap of six
is the `limit(6)` of the query the handler is registered on. -/
theorem recentActivitiesHandler_renders_each_record (now : Int) (snap : List ActivityRecord)
    (dom : Dom) (hel : dom.recentActivitiesList.isSome) :
    ∃ page nodes, recentActivitiesHandler now snap dom = Except.ok page ∧
      page.recentActivitiesList = some nodes ∧
      nodes.filter Node.isItem = snap.map (activityItem now) := by
  obtain ⟨page, h1, h2, -⟩ := recentActivitiesHandler_list now snap dom hel
  exact ⟨page, _, h1, h2, rendered_items now snap⟩

theorem delivered_activities (ordered : List ActivityRecord) :
    activitiesQuery.delivered ordered = ordered.take 6 ∧
    (activitiesQuery.delivered ordered).length = min ordered.length 6 ∧
    ordered.take (min ordered.length 6) = ordered.take 6 := by
  refine ⟨rfl, ?_, ?_⟩
  · show (ordered.take 6).length = _
    rw [List.length_take]; omega
  · rcases Nat.le_total ordered.length 6 with h | h
    · rw [Nat.min_eq_left h, List.take_of_length_le h, List.take_of_length_le (le_refl _)]
    · rw [Nat.min_eq_right h]

/-- C5: for the snapshot that the subscription query, ordered by date and
limited to six, delivers out of N source records (eight, say), the list the
handler leaves on the page holds exactly min(N, 6) item nodes, built in order
from the first min(N, 6) records of the source; the delivered snapshot has
min(N, 6) records itself, and the item nodes are its records in order. -/
theorem C5_rendered_items_are_top_six (now : Int) (ordered : List ActivityRecord) (dom : Dom)
    (hel : dom.recentActivitiesList.isSome) :
    ∃ page nodes,
      recentActivitiesHandler now (activitiesQuery.delivered ordered) dom = Except.ok page ∧
      page.recentActivitiesList = some nodes ∧
      nodes.filter Node.isItem =
        (ordered.take (min ordered.length 6)).map (activityItem now) ∧
      (nodes.filter Node.isItem).length = min ordered.length 6 ∧
      nodes.countP Node.isItem = min ordered.length 6 ∧
      (activitiesQuery.delivered ordered).length = min ordered.length 6 ∧
      nodes.filter Node.isItem =
        ((activitiesQuery.delivered ordered).take
          (min (activitiesQuery.delivered ordered).length 6)).map (activityItem now) ∧
      (nodes.filter Node.isItem).length = min (activitiesQuery.delivered ordered).length 6 := by
  obtain ⟨hdel, hlen, htake⟩ := delivered_activities ordered
  obtain ⟨page, h1, h2, -⟩ :=
    recentActivitiesHandler_list now (activitiesQuery.delivered ordered) dom hel
  have hitems := rendered_items now (activitiesQuery.delivered ordered)
  have hmin : min (activitiesQuery.delivered ordered).length 6 = min ordered.length 6 := by
    rw [hlen]; omega
  have hself : (activitiesQuery.delivered ordered).take
      (min (activitiesQuery.delivered ordered).length 6) = activitiesQuery.delivered ordered := by
    apply List.take_of_length_le
    rw [hmin, hlen]
  have hcount : (List.filter Node.isItem
      (if activitiesQuery.delivered ordered = [] then [placeholderNode]
        else (activitiesQuery.delivered ordered).map (activityItem now))).length =
      min ordered.length 6 := by
    rw [hitems, List.length_map, hlen]
  refine ⟨page, _, h1, h2, ?_, hcount, ?_, hlen, ?_, ?_⟩
  · rw [hitems, htake, hdel]
  · rw [List.countP_eq_length_filter]; exact hcount
  · rw [hitems, hself]
  · rw [hcount, hmin]

/-- C5 at a source of eight records. -/
theorem C5_rendered_items_are_top_six_witness :
    ∃ page nodes,
      recentActivitiesHandler 0 (activitiesQuery.delivered eightActivities) blankDom =
        Except.ok page ∧
      page.recentActivitiesList = some nodes ∧
      nodes.filter Node.isItem =
        (eightActivities.take (min eightActivities.length 6)).map (activityItem 0) ∧
      (nodes.filter Node.isItem).length = min eightActivities.length 6 ∧
      nodes.countP Node.isItem = min eightActivities.length 6 ∧
      (activitiesQuery.delivered eightActivities).length = min eightActivities.length 6 ∧
      nodes.filter Node.isItem =
        ((activitiesQuery.delivered eightActivities).take
          (min (activitiesQuery.delivered eightActivities).length 6)).map (activityItem 0) ∧
      (nodes.filter Node.isItem).length =
        min (activitiesQuery.delivered eightActivities).length 6 :=
  C5_rendered_items_are_top_six 0 eightActivities blankDom rfl

/-- C6: whatever the list held before, after an empty snapshot the list on
the page is exactly the placeholder node, with no item node; after a
non-empty snapshot it is exactly the item nodes built from the records of
that snapshot, with no placeholder and nothing of the previous content; and
the list left is the same from every previous page. -/
theorem C6_list_depends_on_snapshot_only (now : Int) (snap : List ActivityRecord) (dom : Dom)
    (prev : List Node) (hprev : dom.recentActivitiesList = some prev) :
    ∃ page, recentActivitiesHandler now snap dom = Except.ok page ∧
      (snap = [] → page.recentActivitiesList = some [placeholderNode]) ∧
      (snap ≠ [] → page.recentActivitiesList = some (snap.map (activityItem now))) ∧
      (∃ nodes, page.recentActivitiesList = some nodes ∧
        (snap = [] → nodes.countP Node.isPlaceholder = 1 ∧ nodes.countP Node.isItem = 0 ∧
          nodes.length = 1) ∧
        (snap ≠ [] → nodes.countP Node.isPlaceholder = 0 ∧
          nodes.countP Node.isItem = nodes.length ∧ nodes.length = snap.length)) ∧
      (∀ (other : Dom) (before : List Node), other.recentActivitiesList = some before →
        ∃ page2, recentActivitiesHandler now snap other = Except.ok page2 ∧
          page2.recentActivitiesList = page.recentActivitiesList) := by
  obtain ⟨page, h1, h2, -⟩ :=
    recentActivitiesHandler_list now snap dom (by rw [hprev]; rfl)
  refine ⟨page, h1, ?_, ?_, ⟨_, h2, ?_, ?_⟩, ?_⟩
  · intro hs; rw [h2, if_pos hs]
  · intro hs; rw [h2, if_neg hs]
  · intro hs
    rw [if_pos hs]
    exact ⟨by decide, by decide, rfl⟩
  · intro hs
    rw [if_neg hs]
    exact ⟨(countP_items now snap).2, by rw [(countP_items now snap).1, List.length_map],
      List.length_map _ _⟩
  · intro other before hother
    obtain ⟨page2, g1, g2, -⟩ :=
      recentActivitiesHandler_list now snap other (by rw [hother]; rfl)
    exact ⟨page2, g1, g2.trans h2.symm⟩

/-- C6 at an empty snapshot, on a page whose list still shows two nodes. -/
theorem C6_list_depends_on_snapshot_only_witness :
    ∃ page, recentActivitiesHandler 0 []
        ⟨some "", some "", some "", some "", some "", some "",
          some [placeholderNode, placeholderNode]⟩ = Except.ok page ∧
      page.recentActivitiesList = some [placeholderNode] := by
  obtain ⟨page, h1, h2, -⟩ := C6_list_depends_on_snapshot_only 0 []
    ⟨some "", some "", some "", some "", some "", some "",
      some [placeholderNode, placeholderNode]⟩ [placeholderNode, placeholderNode] rfl
  exact ⟨page, h1, h2 rfl⟩

/-! ### The sidebar controller -/

/-- C7: after a viewport sync on a viewport narrower than the breakpoint a
toggle click leaves the drawer open with the root and the body scroll locked;
and from every state an Escape key press leaves the drawer closed, the backdrop
hidden and both scroll locks released. -/
theorem C7_narrow_toggle_opens_escape_closes (s : SidebarState) (width : Nat)
    (hnarrow : width < 1024) :
    (Sidebar.isOpen (Sidebar.step (Sidebar.step s (Sidebar.Event.resize width))
        Sidebar.Event.toggleClick) ∧
      Sidebar.scrollLocked (Sidebar.step (Sidebar.step s (Sidebar.Event.resize width))
        Sidebar.Event.toggleClick)) ∧
    (¬ Sidebar.isOpen (Sidebar.step s (Sidebar.Event.keydown "Escape")) ∧
      (Sidebar.step s (Sidebar.Event.keydown "Escape")).backdropHidden = true ∧
      Sidebar.scrollReleased (Sidebar.step s (Sidebar.Event.keydown "Escape"))) := by
  have hm : Sidebar.matchesMaxWidth1024 width = true := by
    simp only [Sidebar.matchesMaxWidth1024, decide_eq_true_eq]
    omega
  refine ⟨?_, ?_⟩
  · simp [Sidebar.step, Sidebar.syncWithViewport, hm, Sidebar.close, Sidebar.onToggleClick,
      Sidebar.openDrawer, Sidebar.isOpen, Sidebar.scrollLocked]
  · simp [Sidebar.step, Sidebar.onKeydown, Sidebar.close, Sidebar.isOpen,
      Sidebar.scrollReleased]

/-- C7 at a 390 pixel viewport, from a drawer left open by markup. -/
theorem C7_narrow_toggle_opens_escape_closes_witness :
    Sidebar.isOpen (Sidebar.step (Sidebar.step
        { active := true, ariaExpanded := none, backdropHidden := false,
          rootOverflow := "", bodyOverflow := "" } (Sidebar.Event.resize 390))
        Sidebar.Event.toggleClick) :=
  (C7_narrow_toggle_opens_escape_closes
    { active := true, ariaExpanded := none, backdropHidden := false,
      rootOverflow := "", bodyOverflow := "" } 390 (by decide)).1.1

/-- C8, as stated, fails: after a viewport sync at 1280 pixels a toggle click
sets the active flag, shows the backdrop and locks the page scroll. -/
theorem C8_toggle_opens_on_wide_viewport :
    Sidebar.step (Sidebar.step
        { active := false, ariaExpanded := none, backdropHidden := true,
          rootOverflow := "", bodyOverflow := "" } (Sidebar.Event.resize 1280))
        Sidebar.Event.toggleClick =
      { active := true, ariaExpanded := some "true", backdropHidden := false,
        rootOverflow := "hidden", bodyOverflow := "hidden" } := by
  decide

/-- C8, amended: on a viewport wider than 1024 pixels a viewport sync clears
the active flag, hides the backdrop and releases the page scroll, leaving
`aria-expanded` as it was; the toggle listener does not consult the viewport,
so a toggle click in that state opens the drawer, shows the backdrop and locks
the scroll as it does on a narrow viewport. -/
theorem C8_wide_sync_clears_toggle_still_opens (s : SidebarState) (width : Nat)
    (hwide : 1024 < width) :
    Sidebar.step s (Sidebar.Event.resize width) =
      { active := false, ariaExpanded := s.ariaExpanded, backdropHidden := true,
        rootOverflow := "", bodyOverflow := "" } ∧
    Sidebar.step (Sidebar.step s (Sidebar.Event.resize width)) Sidebar.Event.toggleClick =
      { active := true, ariaExpanded := some "true", backdropHidden := false,
        rootOverflow := "hidden", bodyOverflow := "hidden" } := by
  have hm : Sidebar.matchesMaxWidth1024 width = false := by
    simp only [Sidebar.matchesMaxWidth1024, decide_eq_false_iff_not]
    omega
  constructor <;>
    simp [Sidebar.step, Sidebar.syncWithViewport, hm, Sidebar.onToggleClick, Sidebar.openDrawer]

/-- C8 amended, at a 1280 pixel viewport. -/
theorem C8_wide_sync_clears_toggle_still_opens_witness :
    Sidebar.step
        { active := true, ariaExpanded := some "true", backdropHidden := false,
          rootOverflow := "hidden", bodyOverflow := "hidden" } (Sidebar.Event.resize 1280) =
      { active := false, ariaExpanded := some "true", backdropHidden := true,
        rootOverflow := "", bodyOverflow := "" } :=
  (C8_wide_sync_clears_toggle_still_opens
    { active := true, ariaExpanded := some "true", backdropHidden := false,
      rootOverflow := "hidden", bodyOverflow := "hidden" } 1280 (by decide)).1

/-! ### Active-link highlighting -/

theorem markIfMatching_cleared (path : String) (i : NavItem) :
    markIfMatching path { i with active := false } = { i with active := navMatches path i } := by
  cases i with
  | mk href key act =>
    simp only [markIfMatching, navMatches]
    split_ifs with h1 h2
    · rw [decide_eq_true (Or.inl h1)]
    · rw [decide_eq_true (Or.inr h2)]
    · rw [decide_eq_false (fun h => h.elim h1 h2)]

/-- C9, as stated, fails: with two entries whose `href` ends with the page
filename, both are marked active. -/
theorem C9_two_entries_marked :
    (twoMatchingItems.map (navMatches "dashboard.html")) = [true, true, false] ∧
    (highlightActive "dashboard.html" twoMatchingItems).map (fun i => i.active) =
      [true, true, false] ∧
    ¬ ((highlightActive "dashboard.html" twoMatchingItems).countP (fun i => i.active) ≤ 1) := by
  decide

/-- C9, amended: after highlighting an entry is marked active exactly when it
matches (its non-empty href ends with the filename, or the filename contains
its non-empty key), whatever it was marked before; every matching entry is
marked, so the number of active entries is the number of matching entries. -/
theorem C9_every_match_is_marked (path : String) (items : List NavItem) :
    highlightActive path items = items.map (fun i => { i with active := navMatches path i }) ∧
    (highlightActive path items).countP (fun i => i.active) = items.countP (navMatches path) := by
  have h : highlightActive path items =
      items.map (fun i => { i with active := navMatches path i }) := by
    unfold highlightActive
    simp only [List.map_map]
    apply List.map_congr_left
    intro i _
    exact markIfMatching_cleared path i
  refine ⟨h, ?_⟩
  rw [h, List.countP_map]
  rfl

/-- The page filename for a few locations. -/
theorem currentPage_examples :
    currentPage "/app/projects.html" = "projects.html" ∧ currentPage "/" = "dashboard.html" ∧
    currentPage "" = "dashboard.html" := by
  decide

/-! ### The login page -/

/-- The invariant of traces without auth-state events: `authResolved` is still
false, the overlay element is there, and once the fallback timer is no longer
scheduled the overlay is hidden. -/
theorem Login.step_keeps_unresolved (s : LoginState) (e : Login.Event)
    (he : e.isAuthState = false)
    (h : s.authResolved = false ∧ (∃ o, s.overlay = some o) ∧
      (s.timerPending = false → Login.overlayHidden s)) :
    (Login.step s e).authResolved = false ∧ (∃ o, (Login.step s e).overlay = some o) ∧
      ((Login.step s e).timerPending = false → Login.overlayHidden (Login.step s e)) ∧
      (e ≠ Login.Event.fallbackTimer → (Login.step s e).timerPending = s.timerPending) := by
  obtain ⟨hres, ⟨o, ho⟩, hhid⟩ := h
  cases s with
  | mk sdk polling subscribed resolved pending overlay location console =>
    simp only at hres ho
    subst hres ho
    cases e with
    | authState u => simp [Login.Event.isAuthState] at he
    | sdkLoaded => exact ⟨rfl, ⟨o, rfl⟩, hhid, fun _ => rfl⟩
    | continueClick =>
      exact ⟨rfl, ⟨_, rfl⟩, fun _ => ⟨_, rfl, rfl⟩, fun _ => rfl⟩
    | fallbackTimer =>
      cases pending with
      | true => exact ⟨rfl, ⟨_, rfl⟩, fun _ => ⟨_, rfl, rfl⟩, fun hne => absurd rfl hne⟩
      | false => exact ⟨rfl, ⟨o, rfl⟩, hhid, fun _ => rfl⟩
    | pollTick over =>
      cases polling with
      | false => exact ⟨rfl, ⟨o, rfl⟩, hhid, fun _ => rfl⟩
      | true =>
        cases sdk with
        | true => exact ⟨rfl, ⟨o, rfl⟩, hhid, fun _ => rfl⟩
        | false =>
          cases over with
          | true => exact ⟨rfl, ⟨_, rfl⟩, fun _ => ⟨_, rfl, rfl⟩, fun _ => rfl⟩
          | false => exact ⟨rfl, ⟨o, rfl⟩, hhid, fun _ => rfl⟩

theorem Login.run_keeps_unresolved (pre : List Login.Event) :
    ∀ s : LoginState, (∀ e ∈ pre, e.isAuthState = false) →
      (s.authResolved = false ∧ (∃ o, s.overlay = some o) ∧
        (s.timerPending = false → Login.overlayHidden s)) →
      ((Login.run s pre).authResolved = false ∧ (∃ o, (Login.run s pre).overlay = some o) ∧
        ((Login.run s pre).timerPending = false → Login.overlayHidden (Login.run s pre))) ∧
      (Login.Event.fallbackTimer ∉ pre → (Login.run s pre).timerPending = s.timerPending) := by
  induction pre with
  | nil => intro s _ h; exact ⟨h, fun _ => rfl⟩
  | cons e rest ih =>
    intro s hpre h
    have hstep := Login.step_keeps_unresolved s e (hpre e (List.mem_cons_self _ _)) h
    have hrest := ih (Login.step s e) (fun x hx => hpre x (List.mem_cons_of_mem _ hx))
      ⟨hstep.1, hstep.2.1, hstep.2.2.1⟩
    refine ⟨hrest.1, fun hnot => ?_⟩
    have hne : e ≠ Login.Event.fallbackTimer := fun heq => hnot (heq ▸ List.mem_cons_self _ _)
    have hnr : Login.Event.fallbackTimer ∉ rest := fun hin => hnot (List.mem_cons_of_mem _ hin)
    exact (hrest.2 hnr).trans (hstep.2.2.2 hne)

theorem Login.init_unresolved (sdkPresent : Bool) (o : Overlay) :
    (Login.init sdkPresent (some o)).authResolved = false ∧
    (∃ o1, (Login.init sdkPresent (some o)).overlay = some o1) ∧
    (Login.init sdkPresent (some o)).timerPending = true := by
  cases sdkPresent <;> exact ⟨rfl, ⟨_, rfl⟩, rfl⟩

theorem Login.timer_not_pending_after (s : LoginState) :
    (Login.step s Login.Event.fallbackTimer).timerPending = false := by
  cases s with
  | mk sdk polling subscribed resolved pending overlay location console =>
    cases pending <;> cases resolved <;> cases overlay <;> rfl

/-- C10: on a page whose overlay element exists, after any trace without an
auth-state event the firing of the fallback timer leaves the overlay hidden,
whether the SDK was present at load or not; and unless it has fired already
the timer is still scheduled at that point, so its callback does run. -/
theorem C10_fallback_timer_hides_overlay (sdkPresent : Bool) (o : Overlay)
    (pre : List Login.Event) (hpre : ∀ e ∈ pre, e.isAuthState = false) :
    Login.overlayHidden
      (Login.step (Login.run (Login.init sdkPresent (some o)) pre) Login.Event.fallbackTimer) ∧
    (Login.Event.fallbackTimer ∉ pre →
      (Login.run (Login.init sdkPresent (some o)) pre).timerPending = true) := by
  obtain ⟨hres, hov, hpend⟩ := Login.init_unresolved sdkPresent o
  have hrun := Login.run_keeps_unresolved pre (Login.init sdkPresent (some o)) hpre
    ⟨hres, hov, fun h => absurd (hpend.symm.trans h) (by decide)⟩
  have hstep := Login.step_keeps_unresolved _ Login.Event.fallbackTimer rfl hrun.1
  exact ⟨hstep.2.2.1 (Login.timer_not_pending_after _),
    fun hnot => (hrun.2 hnot).trans hpend⟩

/-- C10 on a page whose SDK never loads: two poll ticks, then the timer. -/
theorem C10_fallback_timer_hides_overlay_witness :
    Login.overlayHidden
      (Login.step (Login.run (Login.init false (some { hiddenClass := false, pointerEvents := "" }))
        [Login.Event.pollTick false, Login.Event.pollTick false]) Login.Event.fallbackTimer) :=
  (C10_fallback_timer_hides_overlay false { hiddenClass := false, pointerEvents := "" }
    [Login.Event.pollTick false, Login.Event.pollTick false] (by decide)).1

/-! ### HTML escaping -/

/-- The helper on a few values: markup characters, an already escaped
entity, the empty string, and numbers. -/
theorem escapeHtml_examples :
    escapeHtml (JsVal.str "<a href='x'>Tom & \"Jerry\"</a>") =
      "&lt;a href=&#39;x&#39;&gt;Tom &amp; &quot;Jerry&quot;&lt;/a&gt;" ∧
    escapeHtml (JsVal.str "&amp;") = "&amp;amp;" ∧
    escapeHtml (JsVal.str "") = "" ∧ escapeHtml (JsVal.num 0) = "" ∧
    escapeHtml (JsVal.num (-5)) = "-5" ∧ escapeHtml JsVal.undefined = "" := by
  decide

theorem htmlEntities_shape :
    ∀ ent ∈ htmlEntities, ent.head? = some '&' ∧ '&' ∉ ent.tail ∧
      '<' ∉ ent ∧ '>' ∉ ent ∧ '"' ∉ ent ∧ '\'' ∉ ent := by
  decide

theorem escapeChar_cases (c : Char) :
    (escapeChar c = [c] ∧ c ≠ '&' ∧ c ≠ '<' ∧ c ≠ '>' ∧ c ≠ '"' ∧ c ≠ '\'') ∨
      escapeChar c ∈ htmlEntities := by
  unfold escapeChar
  split_ifs with h1 h2 h3 h4 h5
  · right; decide
  · right; decide
  · right; decide
  · right; decide
  · right; decide
  · left; exact ⟨rfl, h1, h2, h3, h4, h5⟩

theorem ampersands_append_plain (c : Char) (b : List Char) (hc : c ≠ '&')
    (hb : ampersandsStartEntities b) : ampersandsStartEntities (c :: b) := by
  intro pre post h
  cases pre with
  | nil =>
    simp only [List.nil_append, List.cons.injEq] at h
    exact absurd h.1 hc
  | cons p rest =>
    simp only [List.cons_append, List.cons.injEq] at h
    exact hb rest post h.2

theorem ampersands_append_entity (ent b : List Char) (hent : ent ∈ htmlEntities)
    (hb : ampersandsStartEntities b) : ampersandsStartEntities (ent ++ b) := by
  obtain ⟨hhead, htail, -⟩ := htmlEntities_shape ent hent
  cases ent with
  | nil => simp at hhead
  | cons e t =>
    simp only [List.head?_cons, Option.some.injEq] at hhead
    subst hhead
    simp only [List.tail_cons] at htail
    intro pre post h
    cases pre with
    | nil =>
      simp only [List.nil_append, List.cons_append, List.cons.injEq, true_and] at h
      exact ⟨'&' :: t, hent, ⟨b, by rw [← h]; rfl⟩⟩
    | cons p rest =>
      simp only [List.cons_append, List.cons.injEq] at h
      rcases List.append_eq_append_iff.1 h.2 with ⟨a1, -, hb1⟩ | ⟨c1, ht, hc1⟩
      · exact hb a1 post hb1
      · cases c1 with
        | nil => exact hb [] post (by simpa using hc1.symm)
        | cons x c2 =>
          simp only [List.cons_append, List.cons.injEq] at hc1
          exact absurd (by rw [ht, ← hc1.1]; simp) htail

theorem escapeChars_clean (cs : List Char) :
    '<' ∉ escapeChars cs ∧ '>' ∉ escapeChars cs ∧ '"' ∉ escapeChars cs ∧
      '\'' ∉ escapeChars cs ∧ ampersandsStartEntities (escapeChars cs) := by
  induction cs with
  | nil =>
    refine ⟨by simp [escapeChars], by simp [escapeChars], by simp [escapeChars],
      by simp [escapeChars], ?_⟩
    intro pre post h
    cases pre <;> simp [escapeChars] at h
  | cons c cs ih =>
    obtain ⟨h1, h2, h3, h4, h5⟩ := ih
    simp only [escapeChars, List.mem_append, not_or]
    rcases escapeChar_cases c with ⟨he, n0, n1, n2, n3, n4⟩ | hent
    · rw [he]
      refine ⟨⟨by simpa using n1.symm, h1⟩, ⟨by simpa using n2.symm, h2⟩,
        ⟨by simpa using n3.symm, h3⟩, ⟨by simpa using n4.symm, h4⟩, ?_⟩
      exact ampersands_append_plain c _ n0 h5
    · obtain ⟨-, -, e1, e2, e3, e4⟩ := htmlEntities_shape _ hent
      exact ⟨⟨e1, h1⟩, ⟨e2, h2⟩, ⟨e3, h3⟩, ⟨e4, h4⟩, ampersands_append_entity _ _ hent h5⟩

theorem escapeHtml_clean (v : JsVal) :
    '<' ∉ (escapeHtml v).data ∧ '>' ∉ (escapeHtml v).data ∧ '"' ∉ (escapeHtml v).data ∧
      '\'' ∉ (escapeHtml v).data ∧ ampersandsStartEntities (escapeHtml v).data := by
  unfold escapeHtml
  split_ifs
  · exact escapeChars_clean _
  · exact escapeChars_clean []

theorem activityItem_innerHTML (now : Int) (d : ActivityRecord) :
    (activityItem now d).innerHTML =
      itemMarkup (itemTitle d) (itemSource d) (timeAgo now (some (d.date.getD now))) := by
  cases d with
  | mk title date source => cases date <;> rfl

theorem timeAgo_plain (now t : Int) :
    ∀ c ∈ (timeAgo now (some t)).data, (c.isAlphanum || c == ' ') = true := by
  have hdigits : ∀ (n : Int), 0 ≤ n → ∀ (unit : String),
      (∀ c ∈ unit.data, (c.isAlphanum || c == ' ') = true) →
      ∀ c ∈ (toString n ++ unit).data, (c.isAlphanum || c == ' ') = true := by
    intro n hn unit hunit c hc
    rw [rendered_data n hn unit] at hc
    rcases List.mem_append.1 hc with hc | hc
    · have := (toDigits_spec n.toNat).2.1 c hc
      simp [Char.isAlphanum, this]
    · exact hunit c hc
  simp only [timeAgo]
  split_ifs with h1 h2 h3
  · decide
  · exact hdigits _ (by omega) _ (by decide)
  · exact hdigits _ (by unfold jsRound at h2 ⊢; omega) _ (by decide)
  · exact hdigits _ (by unfold jsRound at h3 ⊢; omega) _ (by decide)

theorem itemMarkup_counts (title source time : String)
    (ht : '<' ∉ title.data ∧ '>' ∉ title.data ∧ '"' ∉ title.data ∧ '\'' ∉ title.data)
    (hs : '<' ∉ source.data ∧ '>' ∉ source.data ∧ '"' ∉ source.data ∧ '\'' ∉ source.data)
    (hm : '<' ∉ time.data ∧ '>' ∉ time.data ∧ '"' ∉ time.data ∧ '\'' ∉ time.data) :
    (itemMarkup title source time).data.count '<' = (if source = "" then 8 else 10) ∧
    (itemMarkup title source time).data.count '>' = (if source = "" then 8 else 10) ∧
    (itemMarkup title source time).data.count '"' = (if source = "" then 6 else 8) ∧
    (itemMarkup title source time).data.count '\'' = 0 := by
  obtain ⟨t1, t2, t3, t4⟩ := ht
  obtain ⟨s1, s2, s3, s4⟩ := hs
  obtain ⟨m1, m2, m3, m4⟩ := hm
  by_cases hsrc : source = ""
  · have hb : (source != "") = false := by simp [hsrc]
    simp only [itemMarkup, hb, if_pos hsrc, Bool.false_eq_true, if_false, String.data_append, List.count_append,
      List.count_eq_zero_of_not_mem t1, List.count_eq_zero_of_not_mem t2,
      List.count_eq_zero_of_not_mem t3, List.count_eq_zero_of_not_mem t4,
      List.count_eq_zero_of_not_mem m1, List.count_eq_zero_of_not_mem m2,
      List.count_eq_zero_of_not_mem m3, List.count_eq_zero_of_not_mem m4]
    decide
  · have hb : (source != "") = true := by simp [hsrc]
    simp only [itemMarkup, hb, if_neg hsrc, if_true, String.data_append, List.count_append,
      List.count_eq_zero_of_not_mem t1, List.count_eq_zero_of_not_mem t2,
      List.count_eq_zero_of_not_mem t3, List.count_eq_zero_of_not_mem t4,
      List.count_eq_zero_of_not_mem s1, List.count_eq_zero_of_not_mem s2,
      List.count_eq_zero_of_not_mem s3, List.count_eq_zero_of_not_mem s4,
      List.count_eq_zero_of_not_mem m1, List.count_eq_zero_of_not_mem m2,
      List.count_eq_zero_of_not_mem m3, List.count_eq_zero_of_not_mem m4]
    decide

/-- C11: for every string s the output of `escapeHtml` holds none of the
characters `<`, `>`, the double quote and the apostrophe, and every `&` in it
is the first character of one of the five entities; and in the markup of an
activity item, whatever the title and the source of the record are, the
characters `<`, `>` and the double quote are exactly those of the template
(eight, eight and six, or ten, ten and eight when a source is shown) and no
apostrophe occurs, so the inserted values open no tag and close no attribute. -/
theorem C11_escapeHtml_neutralises_markup (s : String) (now : Int) (d : ActivityRecord) :
    ('<' ∉ (escapeHtml (JsVal.str s)).data ∧ '>' ∉ (escapeHtml (JsVal.str s)).data ∧
      '"' ∉ (escapeHtml (JsVal.str s)).data ∧ '\'' ∉ (escapeHtml (JsVal.str s)).data ∧
      ampersandsStartEntities (escapeHtml (JsVal.str s)).data) ∧
    (activityItem now d).innerHTML =
      itemMarkup (itemTitle d) (itemSource d) (timeAgo now (some (d.date.getD now))) ∧
    (activityItem now d).innerHTML.data.count '<' = (if itemSource d = "" then 8 else 10) ∧
    (activityItem now d).innerHTML.data.count '>' = (if itemSource d = "" then 8 else 10) ∧
    (activityItem now d).innerHTML.data.count '"' = (if itemSource d = "" then 6 else 8) ∧
    (activityItem now d).innerHTML.data.count '\'' = 0 := by
  refine ⟨escapeHtml_clean (JsVal.str s), activityItem_innerHTML now d, ?_⟩
  rw [activityItem_innerHTML now d]
  have htitle := escapeHtml_clean (if d.title.truthy then d.title else JsVal.str "No title")
  have hsource : '<' ∉ (itemSource d).data ∧ '>' ∉ (itemSource d).data ∧
      '"' ∉ (itemSource d).data ∧ '\'' ∉ (itemSource d).data := by
    unfold itemSource
    split_ifs
    · have h := escapeHtml_clean d.source
      exact ⟨h.1, h.2.1, h.2.2.1, h.2.2.2.1⟩
    · decide
  have htime : ∀ c : Char, (c.isAlphanum || c == ' ') = false →
      c ∉ (timeAgo now (some (d.date.getD now))).data := by
    intro c hc hmem
    rw [timeAgo_plain now _ c hmem] at hc
    exact Bool.noConfusion hc
  exact itemMarkup_counts _ _ _ ⟨htitle.1, htitle.2.1, htitle.2.2.1, htitle.2.2.2.1⟩ hsource
    ⟨htime _ (by decide), htime _ (by decide), htime _ (by decide), htime _ (by decide)⟩

/-- C11 at a title that tries to open a tag and close an attribute. -/
theorem C11_escapeHtml_neutralises_markup_witness :
    (activityItem 0 hostileRecord).innerHTML.data.count '<' =
      (if itemSource hostileRecord = "" then 8 else 10) ∧
    (activityItem 0 hostileRecord).innerHTML.data.count '"' =
      (if itemSource hostileRecord = "" then 6 else 8) :=
  ⟨(C11_escapeHtml_neutralises_markup "" 0 hostileRecord).2.2.1,
   (C11_escapeHtml_neutralises_markup "" 0 hostileRecord).2.2.2.2.1⟩

/-- The markup built for the hostile record. -/
theorem activityItem_hostile_markup :
    itemTitle hostileRecord = "&lt;img src=x onerror=&#39;a()&#39;&gt;&quot;" ∧
    itemSource hostileRecord = "&lt;/span&gt;&lt;script&gt;" := by
  decide

end PPM
